import Mathlib

/-!
Verification of the BIND zone synchronizer in `scripts/dns-manager.py`.

The synchronizer's state is modelled by `FsState`: the text of the registry
file `named.conf.local` as a character list, and the per-domain zone files
`db.<domain>` as a map from domain to optional file content.  Python strings
are modelled as `List Char`; Python's substring test `pat in s` is
`containsSub`, `file.readlines()` is `linesKeep`, `re.findall` for the zone
declaration pattern is `findZones`, and `int` rendering in f-strings is
`natDec`.  Each operation of the `DNSManager` class is translated directly
from the source; time (`int(time.time())`) and external-process outcomes are
passed in as explicit parameters.
-/

set_option maxHeartbeats 1000000
set_option maxRecDepth 20000

namespace DnsMgr

/-- Python substring test: `containsSub l pat` models `pat in l` for Python
strings viewed as character lists. -/
def containsSub : List Char → List Char → Bool
  | [], pat => pat.isEmpty
  | c :: t, pat => pat.isPrefixOf (c :: t) || containsSub t pat

/-- Model of Python `f.readlines()` applied to file text `l`: the list of
lines, each keeping its trailing newline (a last line without a newline is
kept as is). -/
def linesKeep : List Char → List (List Char)
  | [] => []
  | c :: t =>
    if c = '\n' then ['\n'] :: linesKeep t
    else
      match linesKeep t with
      | [] => [[c]]
      | l :: ls => (c :: l) :: ls

/-- Decimal digits of a `Nat`, accumulator style; the first argument is fuel
(any bound on the number of digits makes the recursion structural). -/
def natDecAux : Nat → Nat → List Char → List Char
  | 0, _, acc => acc
  | fuel+1, n, acc =>
    if n = 0 then acc else natDecAux fuel (n / 10) (Char.ofNat (48 + n % 10) :: acc)

/-- Decimal rendering of a `Nat`, as Python renders an `int` in an f-string. -/
def natDec (n : Nat) : List Char :=
  if n = 0 then ['0'] else natDecAux (n + 1) n []

/-- The whitespace characters of Python's `str.split()` (ASCII range). -/
def isPyWs (c : Char) : Bool :=
  c = ' ' || c = '\t' || c = '\n' || c = '\r' || c = Char.ofNat 11 || c = Char.ofNat 12

/-- Models Python `''.join(s.split())`: `split()` with no separator splits on
runs of whitespace and drops them, so joining the pieces with the empty
string removes exactly the whitespace characters. -/
def stripWs (l : List Char) : List Char := l.filter (fun c => !(isPyWs c))

/-- Fuel-driven worker for `removeOcc`; any fuel at least the length of the
scanned list gives the intended result, and makes the recursion structural. -/
def removeOccAux (pat : List Char) : Nat → List Char → List Char
  | _, [] => []
  | 0, l => l
  | fuel+1, c :: t =>
    if pat ≠ [] ∧ pat.isPrefixOf (c :: t) then
      removeOccAux pat fuel ((c :: t).drop pat.length)
    else
      c :: removeOccAux pat fuel t

/-- Models Python `s.replace(pat, '')`: delete the occurrences of `pat`,
scanning left to right, never rescanning deleted material. -/
def removeOcc (pat l : List Char) : List Char :=
  removeOccAux pat l.length l

/-- First whitespace-delimited token of a line: skip leading blanks, then take
up to the next blank. -/
def firstTok (l : List Char) : List Char :=
  (l.dropWhile (fun c => c == ' ')).takeWhile (fun c => c != ' ')

/-- The literal part `zone "` of the declaration pattern. -/
def zonePat : List Char := ['z', 'o', 'n', 'e', ' ', '"']

/-- Models `re.findall(r'zone "([^"]+)"', content)` from `list_zones`: scan
left to right; at each position try to match the literal `zone "`, then a
nonempty run of non-quote characters, then a closing quote; on a match the
capture is recorded and scanning resumes after the match, otherwise scanning
advances by one character. -/
def findZones : List Char → List (List Char)
  | [] => []
  | c :: t =>
    if zonePat.isPrefixOf (c :: t) then
      let rest0 := (c :: t).drop 6
      let run := rest0.takeWhile (fun x => x != '"')
      match hdw : rest0.dropWhile (fun x => x != '"') with
      | [] => findZones t
      | _ :: after => if run.isEmpty then findZones t else run :: findZones after
    else findZones t
termination_by l => l.length
decreasing_by
  · simp
  · have h1 : after.length + 1 ≤ ((c :: t).drop 6).length := by
      have hsuf : ((c :: t).drop 6).dropWhile (fun x => x != '"') <:+ (c :: t).drop 6 :=
        List.dropWhile_suffix _
      have := hsuf.sublist.length_le
      rw [hdw] at this
      simpa using this
    have h2 : ((c :: t).drop 6).length = (c :: t).length - 6 := List.length_drop 6 (c :: t)
    simp only [List.length_cons] at h1 h2 ⊢
    omega
  · simp

/-- Configuration values the manager reads from `config.py`:
`VPS_IP`, `NS_BASE` and `DEFAULT_TTL`. -/
structure Config where
  vps_ip : String
  ns_base : String
  default_ttl : Nat

/-- The synchronizer's file-system state: the text of the registry file
`named.conf.local`, and for each domain the content of its zone file
`db.<domain>` at the zone-storage path (`none` = no such file). -/
structure FsState where
  registry : List Char
  zoneFile : String → Option (List Char)

/-- Characters allowed in the domain names this development quantifies over:
lowercase letters, digits, dot, hyphen (the spec's lowercase FQDNs). -/
def goodChar (c : Char) : Bool := c.isLower || c.isDigit || c == '.' || c == '-'

/-- A valid (spec-level) domain name: nonempty, made of `goodChar`s. -/
def ValidDomain (d : String) : Prop :=
  d.toList ≠ [] ∧ ∀ c ∈ d.toList, goodChar c = true

instance (d : String) : Decidable (ValidDomain d) := by
  unfold ValidDomain
  infer_instance

/-! ### The zone-file template of `create_zone_file`, line by line.

The f-string at lines 49-75 of the source, split at newlines; `{ttl}` is
`self.default_ttl`, `{serial}` is `int(time.time())`. -/

def sp21 : List Char := ("                     ").toList
def sp25 : List Char := ("                         ").toList

def line0 (ttl : Nat) : List Char := ("$TTL    ").toList ++ natDec ttl ++ ['\n']

def line1 (ns d : String) : List Char :=
  ("@       IN      SOA     ns1.").toList ++ ns.toList ++ (". admin.").toList
    ++ d.toList ++ (". (").toList ++ ['\n']

def lineSerial (serial : Nat) : List Char :=
  sp21 ++ natDec serial ++ ("           ; Serial (timestamp)").toList ++ ['\n']

def lineRefresh (ttl : Nat) : List Char :=
  sp25 ++ natDec ttl ++ ("         ; Refresh").toList ++ ['\n']

def lineRetry (ttl : Nat) : List Char :=
  sp25 ++ natDec ttl ++ ("         ; Retry").toList ++ ['\n']

def lineExpire : List Char :=
  sp25 ++ ("604800             ; Expire").toList ++ ['\n']

def lineNegCache (ttl : Nat) : List Char :=
  sp25 ++ natDec ttl ++ (" )       ; Negative Cache TTL").toList ++ ['\n']

/-- The rest of the template after the SOA block: NS, A, MX, autodiscovery,
SPF and DMARC records. -/
def zoneTail (cfg : Config) (d : String) : List Char :=
  ("\n; Name servers\n@       IN      NS      ns1.").toList ++ cfg.ns_base.toList
    ++ (".\n@       IN      NS      ns2.").toList ++ cfg.ns_base.toList
    ++ (".\n\n; Mail server\n@       IN      A       ").toList ++ cfg.vps_ip.toList
    ++ ("\nmail    IN      A       ").toList ++ cfg.vps_ip.toList
    ++ ("\n@       IN      MX      10      mail.").toList ++ d.toList
    ++ (".\n\n; Auto-discovery for mail clients\nautodiscover    IN      CNAME   mail\nautoconfig      IN      CNAME   mail\n\n; SPF Record\n@       IN      TXT     \"v=spf1 ip4:").toList
    ++ cfg.vps_ip.toList
    ++ (" mx ~all\"\n\n; DMARC Record\n_dmarc  IN      TXT     \"v=DMARC1; p=quarantine; rua=mailto:dmarc@").toList
    ++ d.toList ++ ("; ruf=mailto:dmarc@").toList ++ d.toList ++ ("; fo=1\"\n").toList

/-- The zone-file body without the optional DKIM section. -/
def zoneBaseL (cfg : Config) (d : String) (serial : Nat) : List Char :=
  line0 cfg.default_ttl ++ line1 cfg.ns_base d ++ lineSerial serial
    ++ lineRefresh cfg.default_ttl ++ lineRetry cfg.default_ttl ++ lineExpire
    ++ lineNegCache cfg.default_ttl ++ zoneTail cfg d

def headerPEM : List Char := ("-----BEGIN PUBLIC KEY-----").toList
def footerPEM : List Char := ("-----END PUBLIC KEY-----").toList

/-- `clean_key` of `create_zone_file`: strip the PEM header and footer, then
remove all whitespace (`''.join(clean_key.split())`). -/
def cleanKey (k : String) : List Char :=
  stripWs (removeOcc footerPEM (removeOcc headerPEM k.toList))

/-- The DKIM section appended when a truthy `dkim_key` is supplied. -/
def dkimChunkL (ck : List Char) : List Char :=
  ("\n; DKIM Record\ndkim._domainkey IN      TXT     \"v=DKIM1; k=rsa; p=").toList
    ++ ck ++ ("\"\n").toList

/-- `if dkim_key:` - Python truthiness: `None` and the empty string add
nothing. -/
def dkimPart : Option String → List Char
  | none => []
  | some k => if k = "" then [] else dkimChunkL (cleanKey k)

/-- The full rendered zone-file body of `create_zone_file`. -/
def zoneContentL (cfg : Config) (domain : String) (serial : Nat) (dkim : Option String) : List Char :=
  zoneBaseL cfg domain serial ++ dkimPart dkim

/-- `DNSManager.create_zone_file` in the executions where the file write
succeeds: render the body with `serial = int(time.time())` (passed in as
`now`) and overwrite `db.<domain>` (mode `'w'`). -/
def create_zone_file (cfg : Config) (now : Nat) (domain : String) (dkim : Option String)
    (st : FsState) : Bool × FsState :=
  (true, { st with
            zoneFile := fun x =>
              if x = domain then some (zoneContentL cfg domain now dkim) else st.zoneFile x })

/-- The `zone "{domain}"` marker used by `add_zone_to_config` and
`remove_zone` for substring matching. -/
def zoneMarkerL (d : String) : List Char := zonePat ++ d.toList ++ ['"']

/-- The `zone_config` block appended by `add_zone_to_config`. -/
def zoneConfigBlockL (d : String) : List Char :=
  '\n' :: zonePat ++ d.toList ++ '"' :: (" \x7b\n    type master;\n    file \"/etc/bind/db.").toList
    ++ d.toList ++ '"' :: (";\n    allow-transfer \x7b any; \x7d;\n\x7d;\n").toList

/-- `DNSManager.add_zone_to_config` in the executions where reading and
appending succeed: if the registry already contains `zone "{domain}"` it is
left unchanged, otherwise the declaration block is appended. -/
def add_zone_to_config (domain : String) (st : FsState) : Bool × FsState :=
  if containsSub st.registry (zoneMarkerL domain) then (true, st)
  else (true, { st with registry := st.registry ++ zoneConfigBlockL domain })

/-- The `'};'` closing marker `remove_zone` scans for. -/
def closeMarkL : List Char := ['\x7d', ';']

/-- The line scan of `remove_zone` (lines 134-144 of the source): a line
containing `zone "{domain}"` starts skipping; while skipping, a line
containing `};` stops skipping and is itself dropped; lines seen while not
skipping are kept. -/
def removeLines (domain : String) : List (List Char) → Bool → List (List Char)
  | [], _ => []
  | l :: ls, skip =>
    if containsSub l (zoneMarkerL domain) then removeLines domain ls true
    else if skip && containsSub l closeMarkL then removeLines domain ls false
    else if skip then removeLines domain ls true
    else l :: removeLines domain ls false

/-- `DNSManager.remove_zone` in the executions where file I/O succeeds:
rewrite the registry from the scanned lines and delete `db.<domain>` if it
exists (its absence is not an error). -/
def remove_zone (domain : String) (st : FsState) : Bool × FsState :=
  let newLines := removeLines domain (linesKeep st.registry) false
  (true, { registry := newLines.flatten,
           zoneFile := fun x => if x = domain then none else st.zoneFile x })

/-- `DNSManager.list_zones` in the executions where reading succeeds: all
`zone "..."` captures in registry order, with the base zone filtered out. -/
def list_zones (cfg : Config) (st : FsState) : List String :=
  ((findZones st.registry).map (fun l => String.mk l)).filter (fun z => z != cfg.ns_base)

/-- `DNSManager.create_domain_dns` in the executions where file I/O and the
reload succeed: zone file, then registry registration, each short-circuiting
on failure (the reload changes no file-system state). -/
def create_domain_dns_p (cfg : Config) (now : Nat) (domain : String) (dkim : Option String)
    (st : FsState) : Bool × FsState :=
  let r1 := create_zone_file cfg now domain dkim st
  if r1.1 then
    let r2 := add_zone_to_config domain r1.2
    if r2.1 then (true, r2.2) else (false, r2.2)
  else (false, r1.2)

/-- A registry consisting of the declaration blocks of `ds`, in order - the
shape `add_zone_to_config` builds starting from an empty registry. -/
def registryOf : List String → List Char
  | [] => []
  | d :: ds => zoneConfigBlockL d ++ registryOf ds

/-! ### The registry block of `add_zone_to_config`, line by line -/

def zLineBody (d : String) : List Char := zonePat ++ d.toList ++ '"' :: (" \x7b").toList

def typeLineBody : List Char := ("    type master;").toList

def fileLineBody (d : String) : List Char :=
  ("    file \"/etc/bind/db.").toList ++ d.toList ++ ("\";").toList

def allowLineBody : List Char := ("    allow-transfer \x7b any; \x7d;").toList

def closeLineBody : List Char := ("\x7d;").toList

/-- The six `readlines` lines of one registry block (the leading blank line,
the `zone` line, `type`, `file`, `allow-transfer`, and the closing brace). -/
def blockLines (d : String) : List (List Char) :=
  [['\n'], zLineBody d ++ ['\n'], typeLineBody ++ ['\n'], fileLineBody d ++ ['\n'],
    allowLineBody ++ ['\n'], closeLineBody ++ ['\n']]

/-- The first blank-separated token of line `i` (0-based) of a file text. -/
def lineTok (content : List Char) (i : Nat) : List Char :=
  firstTok ((linesKeep content).getD i [])

/-! ### Failure-injected models: the `try/except` control flow

The pure operations above model the executions in which every file operation
succeeds.  The error-handling claims are settled against the following models,
in which each external effect (file write/read/append/rewrite/delete,
`named-checkconf`, `systemctl reload bind9`, `dig`) has an explicit outcome,
an exception is an explicit value, and a Python `try/except` block is
`pyCatch`. -/

/-- Result of running an operation: a normal return value, or an uncaught
exception; both carry the file-system state left behind. -/
inductive PyRes (α : Type) where
  | ok : α → FsState → PyRes α
  | exc : FsState → PyRes α

/-- `except Exception as e: ... return fallback` wrapped around a body. -/
def pyCatch {α : Type} (body : PyRes α) (fallback : α) : PyRes α :=
  match body with
  | .ok a s => .ok a s
  | .exc s => .ok fallback s

def PyRes.isOk {α : Type} : PyRes α → Bool
  | .ok _ _ => true
  | .exc _ => false

def PyRes.retval {α : Type} : PyRes α → Option α
  | .ok a _ => some a
  | .exc _ => none

def PyRes.state {α : Type} : PyRes α → FsState
  | .ok _ s => s
  | .exc s => s

/-- Outcomes of the external effects, injected as parameters. -/
structure Env where
  zoneWriteOk : Bool
  regReadOk : Bool
  regAppendOk : Bool
  regWriteOk : Bool
  fileRemoveOk : Bool
  subprocRaises : Bool
  checkconfOk : Bool
  reloadOk : Bool

/-- `create_zone_file` with its `try/except` (source lines 89-98): the
rendering is pure and cannot raise; the file write can, and its failure is
caught and reported as `False`. -/
def create_zone_file_x (env : Env) (cfg : Config) (now : Nat) (domain : String)
    (dkim : Option String) (st : FsState) : PyRes Bool :=
  pyCatch
    (if env.zoneWriteOk then
      .ok true { st with
        zoneFile := fun x =>
          if x = domain then some (zoneContentL cfg domain now dkim) else st.zoneFile x }
    else .exc st)
    false

/-- `add_zone_to_config` with its `try/except` (source lines 110-125). -/
def add_zone_to_config_x (env : Env) (domain : String) (st : FsState) : PyRes Bool :=
  pyCatch
    (if env.regReadOk then
      if containsSub st.registry (zoneMarkerL domain) then .ok true st
      else if env.regAppendOk then
        .ok true { st with registry := st.registry ++ zoneConfigBlockL domain }
      else .exc st
    else .exc st)
    false

/-- `remove_zone` with its `try/except` (source lines 129-160): read, rewrite
from the scanned lines, then delete the zone file only if it exists. -/
def remove_zone_x (env : Env) (domain : String) (st : FsState) : PyRes Bool :=
  pyCatch
    (if env.regReadOk then
      if env.regWriteOk then
        let st1 : FsState :=
          { registry := (removeLines domain (linesKeep st.registry) false).flatten,
            zoneFile := st.zoneFile }
        if st1.zoneFile domain ≠ none then
          if env.fileRemoveOk then
            .ok true { st1 with zoneFile := fun x => if x = domain then none else st1.zoneFile x }
          else .exc st1
        else .ok true st1
      else .exc st
    else .exc st)
    false

/-- `reload_bind` with its `try/except` (source lines 162-182): a raising
subprocess is caught; a nonzero `named-checkconf` or reload exit is `False`. -/
def reload_bind_x (env : Env) (st : FsState) : PyRes Bool :=
  pyCatch
    (if env.subprocRaises then .exc st
    else if env.checkconfOk then
      if env.reloadOk then .ok true st else .ok false st
    else .ok false st)
    false

/-- `list_zones` with its `try/except` (source lines 203-220): a failing read
is caught and the empty list returned. -/
def list_zones_x (env : Env) (cfg : Config) (st : FsState) : PyRes (List String) :=
  pyCatch
    (if env.regReadOk then
      .ok (((findZones st.registry).map (fun l => String.mk l)).filter
        (fun z => z != cfg.ns_base)) st
    else .exc st)
    []

/-- `create_domain_dns` (source lines 184-201): the three stages in order,
returning `False` as soon as one stage reports failure, with no `try` of its
own. -/
def create_domain_dns_x (env : Env) (cfg : Config) (now : Nat) (domain : String)
    (dkim : Option String) (st : FsState) : PyRes Bool :=
  match create_zone_file_x env cfg now domain dkim st with
  | .exc s => .exc s
  | .ok b1 s1 =>
    if b1 then
      match add_zone_to_config_x env domain s1 with
      | .exc s => .exc s
      | .ok b2 s2 =>
        if b2 then
          match reload_bind_x env s2 with
          | .exc s => .exc s
          | .ok b3 s3 => if b3 then .ok true s3 else .ok false s3
        else .ok false s2
    else .ok false s1

/-- One `dig @server domain A` run: whether `subprocess.run` raised (timeout
or similar), and otherwise the exit code and captured stdout.  The `addrs`
field carries, at the spec's level of description, the address records the
query actually resolved; the raw output `stdout` surrounds them with other
text, such as the `;; SERVER: <ip>#53(<ip>)` trailer naming the queried
server. -/
structure DigRun where
  raised : Bool
  returncode : Int
  stdout : String
  addrs : List String

/-- `DNSManager.verify_dns` (source lines 222-238): `True` iff the subprocess
did not raise, exited 0, and the configured IP occurs as a substring anywhere
in the captured output. -/
def verify_dns (vps_ip : String) (r : DigRun) : Bool :=
  if r.raised then false
  else if r.returncode == 0 && containsSub r.stdout.toList vps_ip.toList then true
  else false

/-! ### Sample configuration and states for witnesses and counterexamples -/

/-- The spec's sample configuration: IP `203.0.113.5`, TTL 300. -/
def cfg0 : Config := ⟨"203.0.113.5", "ns-base.tld", 300⟩

/-- An empty installation: empty registry, no zone files. -/
def st0 : FsState := ⟨[], fun _ => none⟩

/-- A state whose zone file for `example.com` has prior content. -/
def stPrior : FsState := ⟨[], fun x => if x = "example.com" then some (("old").toList) else none⟩

/-- The registry holding exactly one declaration block, `example.com`'s, with
its zone file present - the precondition of the spec's removal scenario. -/
def stOneBlock : FsState :=
  ⟨zoneConfigBlockL "example.com",
    fun x => if x = "example.com" then some (("placeholder").toList) else none⟩

/-- A registry holding the blocks of the overlapping pair `a.com` and
`a.com.br` (the first domain's name a prefix of the second's). -/
def stTwoBlocks : FsState :=
  ⟨zoneConfigBlockL "a.com" ++ zoneConfigBlockL "a.com.br", fun _ => none⟩

/-- A realistic `dig @203.0.113.5 example.com A` capture: the query resolved
`198.51.100.7`, and the output's trailer names the queried server, so the
configured IP occurs in the output even though no record resolves to it. -/
def digRun0 : DigRun :=
  ⟨false, 0,
    ";; ANSWER SECTION:\nexample.com.  300  IN  A  198.51.100.7\n\n;; SERVER: 203.0.113.5#53(203.0.113.5)\n",
    ["198.51.100.7"]⟩

/-! ### Faithfulness checks: the modelled strings are the source's f-strings -/

/-- The modelled zone body is, at sample values, exactly the f-string of
`create_zone_file` (lines 49-75 of the source) rendered by Python. -/
theorem zoneBaseL_sample :
    zoneBaseL ⟨"203.0.113.5", "ns-base.tld", 300⟩ "example.com" 1700000000 =
      ("$TTL    300\n@       IN      SOA     ns1.ns-base.tld. admin.example.com. (\n                     1700000000           ; Serial (timestamp)\n                         300         ; Refresh\n                         300         ; Retry\n                         604800             ; Expire\n                         300 )       ; Negative Cache TTL\n\n; Name servers\n@       IN      NS      ns1.ns-base.tld.\n@       IN      NS      ns2.ns-base.tld.\n\n; Mail server\n@       IN      A       203.0.113.5\nmail    IN      A       203.0.113.5\n@       IN      MX      10      mail.example.com.\n\n; Auto-discovery for mail clients\nautodiscover    IN      CNAME   mail\nautoconfig      IN      CNAME   mail\n\n; SPF Record\n@       IN      TXT     \"v=spf1 ip4:203.0.113.5 mx ~all\"\n\n; DMARC Record\n_dmarc  IN      TXT     \"v=DMARC1; p=quarantine; rua=mailto:dmarc@example.com; ruf=mailto:dmarc@example.com; fo=1\"\n").toList := by
  decide

/-- The modelled registry block is, at a sample domain, exactly the
`zone_config` f-string of `add_zone_to_config`. -/
theorem zoneConfigBlockL_sample :
    zoneConfigBlockL "example.com" =
      ("\nzone \"example.com\" \x7b\n    type master;\n    file \"/etc/bind/db.example.com\";\n    allow-transfer \x7b any; \x7d;\n\x7d;\n").toList := by
  decide

/-! ### Lemmas about `containsSub` (Python substring test) -/

theorem containsSub_nil (pat : List Char) : containsSub [] pat = pat.isEmpty := rfl

theorem containsSub_cons (c : Char) (t pat : List Char) :
    containsSub (c :: t) pat = (pat.isPrefixOf (c :: t) || containsSub t pat) := rfl

theorem isPrefixOf_false_of_head_ne {p0 c : Char} (q l : List Char) (hc : c ≠ p0) :
    (p0 :: q).isPrefixOf (c :: l) = false := by
  rw [List.isPrefixOf_cons₂]
  have : (p0 == c) = false := by
    simp only [beq_eq_false_iff_ne, ne_eq]
    exact fun h => hc h.symm
  rw [this, Bool.false_and]

theorem containsSub_cons_ne {p0 c : Char} {q : List Char} (l : List Char) (hc : c ≠ p0) :
    containsSub (c :: l) (p0 :: q) = containsSub l (p0 :: q) := by
  rw [containsSub_cons, isPrefixOf_false_of_head_ne q l hc, Bool.false_or]

theorem containsSub_skip_nohead {p0 : Char} {q : List Char} (x r : List Char)
    (hx : ∀ c ∈ x, c ≠ p0) :
    containsSub (x ++ r) (p0 :: q) = containsSub r (p0 :: q) := by
  induction x with
  | nil => rfl
  | cons c t ih =>
    rw [List.cons_append, containsSub_cons_ne _ (hx c (by simp)),
      ih (fun c hc => hx c (by simp [hc]))]

theorem containsSub_eq_false_of_nohead {p0 : Char} {q : List Char} (x : List Char)
    (hx : ∀ c ∈ x, c ≠ p0) :
    containsSub x (p0 :: q) = false := by
  have h := containsSub_skip_nohead (q := q) x [] hx
  rw [List.append_nil] at h
  rw [h, containsSub_nil]
  rfl

theorem containsSub_of_isPrefixOf {pat l : List Char} (h : pat.isPrefixOf l = true) :
    containsSub l pat = true := by
  cases l with
  | nil =>
    cases pat with
    | nil => rfl
    | cons a as => simp at h
  | cons c t => rw [containsSub_cons, h, Bool.true_or]

theorem containsSub_append_left (x : List Char) {r pat : List Char}
    (h : containsSub r pat = true) : containsSub (x ++ r) pat = true := by
  induction x with
  | nil => exact h
  | cons c t ih => rw [List.cons_append, containsSub_cons, ih, Bool.or_true]

theorem containsSub_subset {l pat : List Char} (h : containsSub l pat = true) :
    ∀ c ∈ pat, c ∈ l := by
  induction l with
  | nil =>
    rw [containsSub_nil, List.isEmpty_iff] at h
    subst h
    intro c hc
    exact absurd hc (by simp)
  | cons a t ih =>
    rw [containsSub_cons, Bool.or_eq_true] at h
    rcases h with h | h
    · exact fun c hc => (List.isPrefixOf_iff_prefix.mp h).sublist.subset hc
    · exact fun c hc => List.mem_cons_of_mem a (ih h c hc)

/-! ### The `zone "` scanning pattern -/

/-- Any pattern starting with the six characters `zone "` cannot match at a
position inside a quote-free, space-free chunk that is followed by a closing
quote: the pattern's space (index 4) or its quote (index 5) is contradicted. -/
theorem isPrefixOf_zonePat_false {q r s : List Char}
    (h1 : ∀ c ∈ s, c ≠ ' ') :
    (zonePat ++ q).isPrefixOf (s ++ '"' :: r) = false := by
  cases htrue : (zonePat ++ q).isPrefixOf (s ++ '"' :: r) with
  | false => rfl
  | true =>
    exfalso
    have hpre : zonePat <+: s ++ '"' :: r :=
      (List.prefix_append zonePat q).trans (List.isPrefixOf_iff_prefix.mp htrue)
    obtain ⟨t, ht⟩ := hpre
    by_cases hlen : 5 ≤ s.length
    · have e1 : (zonePat ++ t)[4]? = some ' ' := by
        rw [List.getElem?_append_left (by simp [zonePat])]
        rfl
      have e2 : (s ++ '"' :: r)[4]? = s[4]? := List.getElem?_append_left (by omega)
      have e3 : s[4]? = some ' ' := by rw [← e2, ← ht, e1]
      exact h1 ' ' (List.getElem?_mem e3) rfl
    · push_neg at hlen
      have e1 : (s ++ '"' :: r)[s.length]? = some '"' := by
        rw [List.getElem?_append_right (le_refl _)]
        simp
      have e2 : (zonePat ++ t)[s.length]? = zonePat[s.length]? := by
        refine List.getElem?_append_left ?_
        simp only [zonePat, List.length_cons, List.length_nil]
        omega
      have e3 : zonePat[s.length]? = some '"' := by rw [← e2, ht, e1]
      have hcase : s.length = 0 ∨ s.length = 1 ∨ s.length = 2 ∨ s.length = 3 ∨ s.length = 4 := by
        omega
      rcases hcase with h | h | h | h | h <;> rw [h] at e3 <;> exact absurd e3 (by decide)

/-- Scanning engine: a `zone "`-headed pattern matches nowhere inside a
space-free chunk followed by a closing quote, so the scan walks past it. -/
theorem containsSub_skip_chunk {q : List Char} (x r : List Char)
    (h1 : ∀ c ∈ x, c ≠ ' ') :
    containsSub (x ++ '"' :: r) (zonePat ++ q) = containsSub ('"' :: r) (zonePat ++ q) := by
  induction x with
  | nil => rfl
  | cons c t ih =>
    have hp : (zonePat ++ q).isPrefixOf ((c :: t) ++ '"' :: r) = false :=
      isPrefixOf_zonePat_false h1
    rw [List.cons_append] at hp
    rw [List.cons_append, containsSub_cons, hp, Bool.false_or,
      ih (fun a ha => h1 a (by simp [ha]))]

theorem isPrefixOf_append_cancel {x p l : List Char} :
    (x ++ p).isPrefixOf (x ++ l) = p.isPrefixOf l := by
  induction x with
  | nil => rfl
  | cons c t ih => simp [List.isPrefixOf_cons₂, ih]

/-- For quote-free `a` and `b`, the pattern `a"` is a prefix of `b"...`
exactly when `a = b`. -/
theorem append_quote_isPrefixOf_iff {a b : List Char} (r : List Char)
    (ha : ∀ c ∈ a, c ≠ '"') (hb : ∀ c ∈ b, c ≠ '"') :
    ((a ++ ['"']).isPrefixOf (b ++ '"' :: r) = true) ↔ a = b := by
  induction a generalizing b with
  | nil =>
    cases b with
    | nil => simp
    | cons x bs =>
      have hx : ('"' :: ([] : List Char)).isPrefixOf (x :: (bs ++ '"' :: r)) = false :=
        isPrefixOf_false_of_head_ne _ _ (fun h => hb x (by simp) h)
      simp only [List.nil_append, List.cons_append]
      rw [hx]
      simp
  | cons c as ih =>
    cases b with
    | nil =>
      have hx : ((c :: (as ++ ['"'])).isPrefixOf ('"' :: r)) = false :=
        isPrefixOf_false_of_head_ne _ _ (fun h => ha c (by simp) h.symm)
      simp only [List.cons_append, List.nil_append]
      rw [hx]
      simp
    | cons x bs =>
      simp only [List.cons_append, List.isPrefixOf_cons₂]
      rw [Bool.and_eq_true, beq_iff_eq]
      constructor
      · rintro ⟨hcx, hpre⟩
        have := (ih (fun u hu => ha u (by simp [hu])) (fun u hu => hb u (by simp [hu]))).mp hpre
        rw [hcx, this]
      · intro h
        injection h with h1 h2
        exact ⟨h1, (ih (fun u hu => ha u (by simp [hu])) (fun u hu => hb u (by simp [hu]))).mpr h2⟩

theorem toList_inj {a b : String} (h : a.toList = b.toList) : a = b := by
  cases a with
  | mk da =>
    cases b with
    | mk db => exact congrArg String.mk (h : da = db)

/-- The marker `zone "{d}"` in `zone "`-headed form. -/
theorem zoneMarkerL_decomp (d : String) :
    zoneMarkerL d = zonePat ++ (d.toList ++ ['"']) := by
  simp [zoneMarkerL, List.append_assoc]

theorem goodChar_spec {c : Char} (h : goodChar c = true) :
    c ≠ ' ' ∧ c ≠ '"' ∧ c ≠ '\n' ∧ c ≠ '\x7d' ∧ c ≠ 'z' → True := fun _ => trivial

theorem goodChar_ne_space {c : Char} (h : goodChar c = true) : c ≠ ' ' := by
  intro he
  subst he
  exact absurd h (by decide)

theorem goodChar_ne_quote {c : Char} (h : goodChar c = true) : c ≠ '"' := by
  intro he
  subst he
  exact absurd h (by decide)

theorem goodChar_ne_nl {c : Char} (h : goodChar c = true) : c ≠ '\n' := by
  intro he
  subst he
  exact absurd h (by decide)

theorem goodChar_ne_rbrace {c : Char} (h : goodChar c = true) : c ≠ '\x7d' := by
  intro he
  subst he
  exact absurd h (by decide)

/-- The chars of a valid domain are not spaces. -/
theorem valid_no_space {d : String} (hd : ValidDomain d) : ∀ c ∈ d.toList, c ≠ ' ' :=
  fun c hc => goodChar_ne_space (hd.2 c hc)

theorem valid_no_quote {d : String} (hd : ValidDomain d) : ∀ c ∈ d.toList, c ≠ '"' :=
  fun c hc => goodChar_ne_quote (hd.2 c hc)

theorem valid_no_nl {d : String} (hd : ValidDomain d) : ∀ c ∈ d.toList, c ≠ '\n' :=
  fun c hc => goodChar_ne_nl (hd.2 c hc)

theorem valid_no_rbrace {d : String} (hd : ValidDomain d) : ∀ c ∈ d.toList, c ≠ '\x7d' :=
  fun c hc => goodChar_ne_rbrace (hd.2 c hc)

/-- All characters of a (typically literal) list differ from `p0`, by
computation. -/
theorem ne_of_all {p0 : Char} {x : List Char} (h : x.all (fun a => a != p0) = true) :
    ∀ c ∈ x, c ≠ p0 := by
  intro c hc
  have := List.all_eq_true.mp h c hc
  simpa using this

/-! ### Lines of a file: `linesKeep` -/

theorem linesKeep_eq_nil {l : List Char} : linesKeep l = [] ↔ l = [] := by
  constructor
  · intro h
    cases l with
    | nil => rfl
    | cons c t =>
      by_cases hc : c = '\n'
      · subst hc
        simp [linesKeep] at h
      · rw [linesKeep, if_neg hc] at h
        cases hlk : linesKeep t with
        | nil => rw [hlk] at h; exact absurd h (by simp)
        | cons x xs => rw [hlk] at h; exact absurd h (by simp)
  · intro h
    subst h
    rfl

theorem flatten_linesKeep (l : List Char) : (linesKeep l).flatten = l := by
  induction l with
  | nil => rfl
  | cons c t ih =>
    by_cases hc : c = '\n'
    · subst hc
      rw [linesKeep, if_pos rfl, List.flatten_cons, ih]
      rfl
    · rw [linesKeep, if_neg hc]
      cases hlk : linesKeep t with
      | nil =>
        have ht : t = [] := linesKeep_eq_nil.mp hlk
        subst ht
        rfl
      | cons x xs =>
        rw [hlk] at ih
        rw [List.flatten_cons, List.cons_append, ← List.flatten_cons, ih]

/-- Peeling one newline-terminated line off the front of a file. -/
theorem linesKeep_peel {x : List Char} (r : List Char) (hx : ∀ c ∈ x, c ≠ '\n') :
    linesKeep (x ++ '\n' :: r) = (x ++ ['\n']) :: linesKeep r := by
  induction x with
  | nil => simp [linesKeep]
  | cons c t ih =>
    have hc : c ≠ '\n' := hx c (by simp)
    rw [List.cons_append, linesKeep, if_neg hc, ih (fun a ha => hx a (by simp [ha]))]
    simp

theorem zoneConfigBlockL_decomp (d : String) (r : List Char) :
    zoneConfigBlockL d ++ r =
      '\n' :: (zLineBody d ++ '\n' :: (typeLineBody ++ '\n' :: (fileLineBody d ++ '\n' ::
        (allowLineBody ++ '\n' :: (closeLineBody ++ '\n' :: r))))) := by
  have e1 : ((" \x7b\n    type master;\n    file \"/etc/bind/db.").toList : List Char)
      = (" \x7b").toList ++ '\n' :: (typeLineBody ++ '\n' :: ("    file \"/etc/bind/db.").toList) := by
    decide
  have e2 : ((";\n    allow-transfer \x7b any; \x7d;\n\x7d;\n").toList : List Char)
      = (";").toList ++ '\n' :: (allowLineBody ++ '\n' :: (closeLineBody ++ ['\n'])) := by
    decide
  simp only [zoneConfigBlockL, zLineBody, fileLineBody, e1, e2]
  simp [List.append_assoc]

theorem noNl_zLineBody {d : String} (hd : ValidDomain d) : ∀ c ∈ zLineBody d, c ≠ '\n' := by
  intro c hc
  simp only [zLineBody, List.mem_append, List.mem_cons] at hc
  rcases hc with (hc | hc) | hc | hc
  · exact ne_of_all (by decide) c hc
  · exact valid_no_nl hd c hc
  · subst hc
    decide
  · exact ne_of_all (by decide) c hc

theorem noNl_fileLineBody {d : String} (hd : ValidDomain d) : ∀ c ∈ fileLineBody d, c ≠ '\n' := by
  intro c hc
  simp only [fileLineBody, List.mem_append] at hc
  rcases hc with (hc | hc) | hc
  · exact ne_of_all (by decide) c hc
  · exact valid_no_nl hd c hc
  · exact ne_of_all (by decide) c hc

/-- `readlines` of a registry that starts with one declaration block. -/
theorem linesKeep_block (d : String) (r : List Char) (hd : ValidDomain d) :
    linesKeep (zoneConfigBlockL d ++ r) = blockLines d ++ linesKeep r := by
  rw [zoneConfigBlockL_decomp]
  have p0 : linesKeep (([] : List Char) ++ '\n' :: (zLineBody d ++ '\n' :: (typeLineBody ++ '\n' :: (fileLineBody d ++ '\n' :: (allowLineBody ++ '\n' :: (closeLineBody ++ '\n' :: r))))))
      = (([] : List Char) ++ ['\n']) :: linesKeep (zLineBody d ++ '\n' :: (typeLineBody ++ '\n' :: (fileLineBody d ++ '\n' :: (allowLineBody ++ '\n' :: (closeLineBody ++ '\n' :: r))))) :=
    linesKeep_peel _ (by simp)
  rw [List.nil_append] at p0
  rw [p0]
  rw [linesKeep_peel _ (noNl_zLineBody hd)]
  rw [linesKeep_peel _ (ne_of_all (x := typeLineBody) (by decide))]
  rw [linesKeep_peel _ (noNl_fileLineBody hd)]
  rw [linesKeep_peel _ (ne_of_all (x := allowLineBody) (by decide))]
  rw [linesKeep_peel _ (ne_of_all (x := closeLineBody) (by decide))]
  rfl

/-! ### Scanning engines specialised to `zone "`-headed patterns -/

theorem containsSub_eq_false_of_noz {q : List Char} (x : List Char)
    (hx : ∀ c ∈ x, c ≠ 'z') :
    containsSub x (zonePat ++ q) = false := by
  show containsSub x ('z' :: ('o' :: 'n' :: 'e' :: ' ' :: '"' :: q)) = false
  exact containsSub_eq_false_of_nohead x hx

theorem containsSub_skip_noz {q : List Char} (x r : List Char)
    (hx : ∀ c ∈ x, c ≠ 'z') :
    containsSub (x ++ r) (zonePat ++ q) = containsSub r (zonePat ++ q) := by
  show containsSub (x ++ r) ('z' :: ('o' :: 'n' :: 'e' :: ' ' :: '"' :: q)) = containsSub r ('z' :: ('o' :: 'n' :: 'e' :: ' ' :: '"' :: q))
  exact containsSub_skip_nohead x r hx

theorem containsSub_zonePat_append (q X : List Char) :
    containsSub (zonePat ++ X) (zonePat ++ q)
      = ((zonePat ++ q).isPrefixOf (zonePat ++ X) || containsSub X (zonePat ++ q)) := by
  show containsSub ('z' :: 'o' :: 'n' :: 'e' :: ' ' :: '"' :: X) ('z' :: ('o' :: 'n' :: 'e' :: ' ' :: '"' :: q))
      = (('z' :: ('o' :: 'n' :: 'e' :: ' ' :: '"' :: q)).isPrefixOf ('z' :: 'o' :: 'n' :: 'e' :: ' ' :: '"' :: X)
          || containsSub X ('z' :: ('o' :: 'n' :: 'e' :: ' ' :: '"' :: q)))
  rw [containsSub_cons, containsSub_cons_ne _ (by decide), containsSub_cons_ne _ (by decide),
    containsSub_cons_ne _ (by decide), containsSub_cons_ne _ (by decide),
    containsSub_cons_ne _ (by decide)]

/-- At the head of a declaration, the marker for `d` matches iff the declared
domain is `d`. -/
theorem marker_isPrefixOf_zdecl {d d' : String} (rest : List Char) (hd : ValidDomain d)
    (hd' : ValidDomain d') :
    ((zoneMarkerL d).isPrefixOf (zonePat ++ (d'.toList ++ '"' :: rest)) = true) ↔ d = d' := by
  rw [zoneMarkerL_decomp, isPrefixOf_append_cancel]
  rw [append_quote_isPrefixOf_iff rest (valid_no_quote hd) (valid_no_quote hd')]
  constructor
  · exact toList_inj
  · intro h
    rw [h]

/-! ### Marker and close-marker containment, per block line -/

theorem containsSub_nlline_marker (d : String) : containsSub ['\n'] (zoneMarkerL d) = false := by
  rw [zoneMarkerL_decomp]
  exact containsSub_eq_false_of_noz _ (ne_of_all (by decide))

theorem zLine_shape (d : String) :
    zLineBody d ++ ['\n'] = zonePat ++ (d.toList ++ '"' :: [' ', '\x7b', '\n']) := by
  have e : ((" \x7b").toList : List Char) = [' ', '\x7b'] := by decide
  simp [zLineBody, e, List.append_assoc]

theorem containsSub_zLine_self (d : String) (hd : ValidDomain d) :
    containsSub (zLineBody d ++ ['\n']) (zoneMarkerL d) = true := by
  rw [zLine_shape]
  refine containsSub_of_isPrefixOf ?_
  exact (marker_isPrefixOf_zdecl _ hd hd).mpr rfl

theorem containsSub_zLine_ne (d d' : String) (hd : ValidDomain d) (hd' : ValidDomain d')
    (hne : d ≠ d') :
    containsSub (zLineBody d' ++ ['\n']) (zoneMarkerL d) = false := by
  rw [zLine_shape, zoneMarkerL_decomp, containsSub_zonePat_append]
  have h1 : (zonePat ++ (d.toList ++ ['"'])).isPrefixOf (zonePat ++ (d'.toList ++ '"' :: [' ', '\x7b', '\n'])) = false := by
    cases hb : (zonePat ++ (d.toList ++ ['"'])).isPrefixOf (zonePat ++ (d'.toList ++ '"' :: [' ', '\x7b', '\n'])) with
    | false => rfl
    | true =>
      rw [← zoneMarkerL_decomp] at hb
      exact absurd ((marker_isPrefixOf_zdecl _ hd hd').mp hb) hne
  rw [h1, Bool.false_or]
  rw [containsSub_skip_chunk _ _ (valid_no_space hd')]
  exact containsSub_eq_false_of_noz _ (ne_of_all (by decide))

theorem containsSub_typeLine_marker (d : String) :
    containsSub (typeLineBody ++ ['\n']) (zoneMarkerL d) = false := by
  rw [zoneMarkerL_decomp]
  exact containsSub_eq_false_of_noz _ (ne_of_all (by decide))

theorem fileLine_shape (d : String) :
    fileLineBody d ++ ['\n']
      = ("    file \"/etc/bind/db.").toList ++ (d.toList ++ '"' :: [';', '\n']) := by
  have e : (("\";").toList : List Char) = ['"', ';'] := by decide
  simp [fileLineBody, e, List.append_assoc]

theorem containsSub_fileLine_marker (d d' : String) (hd' : ValidDomain d') :
    containsSub (fileLineBody d' ++ ['\n']) (zoneMarkerL d) = false := by
  rw [fileLine_shape, zoneMarkerL_decomp]
  rw [containsSub_skip_noz _ _ (ne_of_all (by decide))]
  rw [containsSub_skip_chunk _ _ (valid_no_space hd')]
  exact containsSub_eq_false_of_noz _ (ne_of_all (by decide))

theorem containsSub_allowLine_marker (d : String) :
    containsSub (allowLineBody ++ ['\n']) (zoneMarkerL d) = false := by
  rw [zoneMarkerL_decomp]
  exact containsSub_eq_false_of_noz _ (ne_of_all (by decide))

theorem containsSub_closeLine_marker (d : String) :
    containsSub (closeLineBody ++ ['\n']) (zoneMarkerL d) = false := by
  rw [zoneMarkerL_decomp]
  exact containsSub_eq_false_of_noz _ (ne_of_all (by decide))

theorem containsSub_nlline_close : containsSub ['\n'] closeMarkL = false := by decide

theorem containsSub_zLine_close (d : String) (hd : ValidDomain d) :
    containsSub (zLineBody d ++ ['\n']) closeMarkL = false := by
  refine containsSub_eq_false_of_nohead _ ?_
  intro c hc
  rw [zLine_shape] at hc
  rcases List.mem_append.mp hc with hc | hc
  · exact ne_of_all (by decide) c hc
  · rcases List.mem_append.mp hc with hc | hc
    · exact valid_no_rbrace hd c hc
    · exact ne_of_all (by decide) c hc

theorem containsSub_typeLine_close : containsSub (typeLineBody ++ ['\n']) closeMarkL = false := by
  decide

theorem containsSub_fileLine_close (d : String) (hd : ValidDomain d) :
    containsSub (fileLineBody d ++ ['\n']) closeMarkL = false := by
  refine containsSub_eq_false_of_nohead _ ?_
  intro c hc
  rw [fileLine_shape] at hc
  rcases List.mem_append.mp hc with hc | hc
  · exact ne_of_all (by decide) c hc
  · rcases List.mem_append.mp hc with hc | hc
    · exact valid_no_rbrace hd c hc
    · exact ne_of_all (by decide) c hc

theorem containsSub_allowLine_close : containsSub (allowLineBody ++ ['\n']) closeMarkL = true := by
  decide

/-! ### The `remove_zone` scan over whole blocks -/

/-- Removing `d` eats its block's lines up to and including the
`allow-transfer` line (whose text contains the scan's closing marker), then
keeps the block's real closing line: the blank line and a stray closing brace
line survive the removal. -/
theorem removeLines_block_hit (d : String) (rest : List (List Char)) (hd : ValidDomain d) :
    removeLines d (blockLines d ++ rest) false
      = ['\n'] :: (closeLineBody ++ ['\n']) :: removeLines d rest false := by
  simp only [blockLines, List.cons_append, List.nil_append]
  rw [removeLines, if_neg (by rw [containsSub_nlline_marker]; exact (by decide)),
    if_neg (by rw [Bool.false_and]; exact (by decide)), if_neg (by decide)]
  rw [removeLines, if_pos (by rw [containsSub_zLine_self d hd])]
  rw [removeLines, if_neg (by rw [containsSub_typeLine_marker d]; exact (by decide)),
    if_neg (by rw [Bool.true_and, containsSub_typeLine_close]; exact (by decide)),
    if_pos rfl]
  rw [removeLines, if_neg (by rw [containsSub_fileLine_marker d d hd]; exact (by decide)),
    if_neg (by rw [Bool.true_and, containsSub_fileLine_close d hd]; exact (by decide)),
    if_pos rfl]
  rw [removeLines, if_neg (by rw [containsSub_allowLine_marker d]; exact (by decide)),
    if_pos (by rw [Bool.true_and, containsSub_allowLine_close])]
  rw [removeLines, if_neg (by rw [containsSub_closeLine_marker d]; exact (by decide)),
    if_neg (by rw [Bool.false_and]; exact (by decide)), if_neg (by decide)]

/-- Removing `d` leaves the whole block of a different domain `d'` intact. -/
theorem removeLines_block_miss (d d' : String) (rest : List (List Char)) (hd : ValidDomain d)
    (hd' : ValidDomain d') (hne : d ≠ d') :
    removeLines d (blockLines d' ++ rest) false
      = blockLines d' ++ removeLines d rest false := by
  simp only [blockLines, List.cons_append, List.nil_append]
  rw [removeLines, if_neg (by rw [containsSub_nlline_marker]; exact (by decide)),
    if_neg (by rw [Bool.false_and]; exact (by decide)), if_neg (by decide)]
  rw [removeLines, if_neg (by rw [containsSub_zLine_ne d d' hd hd' hne]; exact (by decide)),
    if_neg (by rw [Bool.false_and]; exact (by decide)), if_neg (by decide)]
  rw [removeLines, if_neg (by rw [containsSub_typeLine_marker d]; exact (by decide)),
    if_neg (by rw [Bool.false_and]; exact (by decide)), if_neg (by decide)]
  rw [removeLines, if_neg (by rw [containsSub_fileLine_marker d d' hd']; exact (by decide)),
    if_neg (by rw [Bool.false_and]; exact (by decide)), if_neg (by decide)]
  rw [removeLines, if_neg (by rw [containsSub_allowLine_marker d]; exact (by decide)),
    if_neg (by rw [Bool.false_and]; exact (by decide)), if_neg (by decide)]
  rw [removeLines, if_neg (by rw [containsSub_closeLine_marker d]; exact (by decide)),
    if_neg (by rw [Bool.false_and]; exact (by decide)), if_neg (by decide)]

/-! ### Lemmas about `findZones` (the `re.findall` scan of `list_zones`) -/

theorem findZones_nil : findZones [] = [] := by simp [findZones]

theorem findZones_cons_not_pre {c : Char} {l : List Char}
    (h : zonePat.isPrefixOf (c :: l) = false) : findZones (c :: l) = findZones l := by
  rw [findZones]
  simp [h]

theorem findZones_cons_ne {c : Char} (l : List Char) (hc : c ≠ 'z') :
    findZones (c :: l) = findZones l :=
  findZones_cons_not_pre (isPrefixOf_false_of_head_ne _ _ hc)

theorem findZones_skip_noz (x r : List Char) (hx : ∀ c ∈ x, c ≠ 'z') :
    findZones (x ++ r) = findZones r := by
  induction x with
  | nil => rfl
  | cons c t ih =>
    rw [List.cons_append, findZones_cons_ne _ (hx c (by simp)),
      ih (fun a ha => hx a (by simp [ha]))]

theorem findZones_skip_chunk (x r : List Char) (h1 : ∀ c ∈ x, c ≠ ' ') :
    findZones (x ++ '"' :: r) = findZones ('"' :: r) := by
  induction x with
  | nil => rfl
  | cons c t ih =>
    have hp : zonePat.isPrefixOf ((c :: t) ++ '"' :: r) = false := by
      have h := isPrefixOf_zonePat_false (q := []) (r := r) (s := c :: t) h1
      rwa [List.append_nil] at h
    rw [List.cons_append] at hp
    rw [List.cons_append, findZones_cons_not_pre hp,
      ih (fun a ha => h1 a (by simp [ha]))]

/-- At the head of a declaration for a valid domain, the scan captures the
domain and resumes after its closing quote. -/
theorem findZones_match (d : String) (r : List Char) (hd : ValidDomain d) :
    findZones (zonePat ++ (d.toList ++ '"' :: r)) = d.toList :: findZones r := by
  have hbne : ∀ a ∈ d.toList, (a != '"') = true := by
    intro a ha
    simpa using valid_no_quote hd a ha
  have hpre : zonePat.isPrefixOf (zonePat ++ (d.toList ++ '"' :: r)) = true := by
    rw [List.isPrefixOf_iff_prefix]
    exact List.prefix_append _ _
  have hdrop : (zonePat ++ (d.toList ++ '"' :: r)).drop 6 = d.toList ++ '"' :: r :=
    List.drop_left' rfl
  have htw : (d.toList ++ '"' :: r).takeWhile (fun x => x != '"') = d.toList := by
    rw [List.takeWhile_append_of_pos hbne]
    simp [List.takeWhile_cons]
  have hdw : (d.toList ++ '"' :: r).dropWhile (fun x => x != '"') = '"' :: r := by
    rw [List.dropWhile_append_of_pos hbne]
    simp [List.dropWhile_cons]
  show findZones ('z' :: ('o' :: 'n' :: 'e' :: ' ' :: '"' :: (d.toList ++ '"' :: r)))
      = d.toList :: findZones r
  rw [findZones]
  have hpre' : zonePat.isPrefixOf ('z' :: ('o' :: 'n' :: 'e' :: ' ' :: '"' :: (d.toList ++ '"' :: r))) = true := hpre
  rw [hpre']
  simp only [if_true]
  have hdrop' : ('z' :: ('o' :: 'n' :: 'e' :: ' ' :: '"' :: (d.toList ++ '"' :: r))).drop 6 = d.toList ++ '"' :: r := hdrop
  rw [hdrop', htw, hdw]
  have hne : d.toList.isEmpty = false := by
    simpa [List.isEmpty_iff] using hd.1
  rw [hne]
  simp

/-! ### Scanning a whole registry block -/

/-- The block, re-associated for the scanning lemmas: a newline, then the
`zone "` pattern, the domain, its closing quote, literal text containing the
second occurrence of the domain, and the remainder. -/
theorem zoneConfigBlockL_scan_shape (d : String) (r : List Char) :
    zoneConfigBlockL d ++ r
      = '\n' :: (zonePat ++ (d.toList ++ '"' :: ((" \x7b\n    type master;\n    file \"/etc/bind/db.").toList
          ++ (d.toList ++ '"' :: ((";\n    allow-transfer \x7b any; \x7d;\n\x7d;\n").toList ++ r))))) := by
  simp [zoneConfigBlockL, List.append_assoc]

theorem findZones_block (d : String) (r : List Char) (hd : ValidDomain d) :
    findZones (zoneConfigBlockL d ++ r) = d.toList :: findZones r := by
  rw [zoneConfigBlockL_scan_shape]
  rw [findZones_cons_ne _ (by decide)]
  rw [findZones_match d _ hd]
  rw [findZones_skip_noz _ _ (ne_of_all (by decide))]
  rw [findZones_skip_chunk _ _ (valid_no_space hd)]
  rw [findZones_cons_ne _ (by decide)]
  rw [findZones_skip_noz _ _ (ne_of_all (by decide))]

theorem containsSub_block_self (d : String) (r : List Char) (hd : ValidDomain d) :
    containsSub (zoneConfigBlockL d ++ r) (zoneMarkerL d) = true := by
  rw [zoneConfigBlockL_scan_shape, containsSub_cons]
  have h : containsSub (zonePat ++ (d.toList ++ '"' :: ((" \x7b\n    type master;\n    file \"/etc/bind/db.").toList
      ++ (d.toList ++ '"' :: ((";\n    allow-transfer \x7b any; \x7d;\n\x7d;\n").toList ++ r))))) (zoneMarkerL d) = true :=
    containsSub_of_isPrefixOf ((marker_isPrefixOf_zdecl _ hd hd).mpr rfl)
  rw [h, Bool.or_true]

theorem containsSub_block_ne (d d' : String) (r : List Char) (hd : ValidDomain d)
    (hd' : ValidDomain d') (hne : d ≠ d') :
    containsSub (zoneConfigBlockL d' ++ r) (zoneMarkerL d) = containsSub r (zoneMarkerL d) := by
  rw [zoneConfigBlockL_scan_shape, zoneMarkerL_decomp]
  rw [← List.singleton_append, containsSub_skip_noz _ _ (ne_of_all (by decide))]
  rw [containsSub_zonePat_append]
  have h1 : (zonePat ++ (d.toList ++ ['"'])).isPrefixOf (zonePat ++ (d'.toList ++ '"' :: ((" \x7b\n    type master;\n    file \"/etc/bind/db.").toList
      ++ (d'.toList ++ '"' :: ((";\n    allow-transfer \x7b any; \x7d;\n\x7d;\n").toList ++ r))))) = false := by
    cases hb : (zonePat ++ (d.toList ++ ['"'])).isPrefixOf (zonePat ++ (d'.toList ++ '"' :: ((" \x7b\n    type master;\n    file \"/etc/bind/db.").toList
        ++ (d'.toList ++ '"' :: ((";\n    allow-transfer \x7b any; \x7d;\n\x7d;\n").toList ++ r))))) with
    | false => rfl
    | true =>
      rw [← zoneMarkerL_decomp] at hb
      exact absurd ((marker_isPrefixOf_zdecl _ hd hd').mp hb) hne
  rw [h1, Bool.false_or]
  rw [containsSub_skip_chunk _ _ (valid_no_space hd')]
  rw [← List.singleton_append, containsSub_skip_noz _ _ (ne_of_all (by decide))]
  rw [containsSub_skip_noz _ _ (ne_of_all (by decide))]
  rw [containsSub_skip_chunk _ _ (valid_no_space hd')]
  rw [← List.singleton_append, containsSub_skip_noz _ _ (ne_of_all (by decide))]
  rw [containsSub_skip_noz _ _ (ne_of_all (by decide))]

/-! ### Registries built of declaration blocks -/

theorem registryOf_append (ds : List String) (d : String) :
    registryOf (ds ++ [d]) = registryOf ds ++ zoneConfigBlockL d := by
  induction ds with
  | nil => simp [registryOf]
  | cons a as ih => simp [registryOf, ih, List.append_assoc]

theorem findZones_registryOf (ds : List String) (h : ∀ d ∈ ds, ValidDomain d) :
    findZones (registryOf ds) = ds.map (fun d => d.toList) := by
  induction ds with
  | nil => exact findZones_nil
  | cons d as ih =>
    show findZones (zoneConfigBlockL d ++ registryOf as) = _
    rw [findZones_block d _ (h d (by simp)), ih (fun a ha => h a (by simp [ha]))]
    rfl

theorem containsSub_registryOf_marker (d : String) (ds : List String) (hd : ValidDomain d)
    (h : ∀ a ∈ ds, ValidDomain a) :
    (containsSub (registryOf ds) (zoneMarkerL d) = true) ↔ d ∈ ds := by
  induction ds with
  | nil =>
    show (containsSub [] (zoneMarkerL d) = true) ↔ _
    rw [containsSub_nil, zoneMarkerL_decomp]
    show ((('z' :: ('o' :: 'n' :: 'e' :: ' ' :: '"' :: (d.toList ++ ['"']))) : List Char).isEmpty = true) ↔ _
    simp
  | cons a as ih =>
    show (containsSub (zoneConfigBlockL a ++ registryOf as) (zoneMarkerL d) = true) ↔ _
    by_cases hda : d = a
    · subst hda
      rw [containsSub_block_self d _ hd]
      simp
    · rw [containsSub_block_ne d a _ hd (h a (by simp)) hda]
      rw [ih (fun x hx => h x (by simp [hx]))]
      simp [hda]

theorem mk_toList (s : String) : String.mk s.toList = s := by
  cases s
  rfl

theorem list_zones_registryOf (cfg : Config) (st : FsState) (ds : List String)
    (h : ∀ d ∈ ds, ValidDomain d) (hreg : st.registry = registryOf ds) :
    list_zones cfg st = ds.filter (fun z => z != cfg.ns_base) := by
  unfold list_zones
  rw [hreg, findZones_registryOf ds h, List.map_map]
  congr 1
  rw [show (fun l => String.mk l) ∘ (fun d : String => d.toList) = id from ?_]
  · rw [List.map_id]
  · funext s
    exact mk_toList s

/-! ### Digits of `natDec` -/

theorem digit_char_isDigit : ∀ m, m < 10 → (Char.ofNat (48 + m)).isDigit = true := by
  decide

theorem natDecAux_mem (fuel : Nat) : ∀ (n : Nat) (acc : List Char),
    ∀ c ∈ natDecAux fuel n acc, c ∈ acc ∨ c.isDigit = true := by
  induction fuel with
  | zero => intro n acc c hc; exact Or.inl hc
  | succ f ih =>
    intro n acc c hc
    rw [natDecAux] at hc
    by_cases hn : n = 0
    · rw [if_pos hn] at hc
      exact Or.inl hc
    · rw [if_neg hn] at hc
      rcases ih _ _ c hc with h | h
      · rcases List.mem_cons.mp h with h | h
        · right
          rw [h]
          exact digit_char_isDigit _ (Nat.mod_lt _ (by decide))
        · exact Or.inl h
      · exact Or.inr h

theorem natDec_digits (n : Nat) : ∀ c ∈ natDec n, c.isDigit = true := by
  intro c hc
  rw [natDec] at hc
  by_cases hn : n = 0
  · rw [if_pos hn] at hc
    simp at hc
    rw [hc]
    decide
  · rw [if_neg hn] at hc
    rcases natDecAux_mem _ _ _ c hc with h | h
    · exact absurd h (by simp)
    · exact h

theorem natDecAux_acc (fuel : Nat) : ∀ (n : Nat) (acc : List Char),
    ∃ pre, natDecAux fuel n acc = pre ++ acc := by
  induction fuel with
  | zero => exact fun n acc => ⟨[], rfl⟩
  | succ f ih =>
    intro n acc
    rw [natDecAux]
    by_cases hn : n = 0
    · rw [if_pos hn]
      exact ⟨[], rfl⟩
    · rw [if_neg hn]
      obtain ⟨pre, hp⟩ := ih (n / 10) (Char.ofNat (48 + n % 10) :: acc)
      exact ⟨pre ++ [Char.ofNat (48 + n % 10)], by rw [hp]; simp⟩

theorem natDec_ne_nil (n : Nat) : natDec n ≠ [] := by
  rw [natDec]
  by_cases hn : n = 0
  · rw [if_pos hn]
    simp
  · rw [if_neg hn, natDecAux, if_neg hn]
    obtain ⟨pre, hp⟩ := natDecAux_acc (n) (n / 10) [Char.ofNat (48 + n % 10)]
    rw [hp]
    simp

theorem isDigit_ne_space {c : Char} (h : c.isDigit = true) : c ≠ ' ' := by
  intro he
  rw [he] at h
  exact absurd h (by decide)

theorem isDigit_ne_nl {c : Char} (h : c.isDigit = true) : c ≠ '\n' := by
  intro he
  rw [he] at h
  exact absurd h (by decide)

theorem natDec_no_nl (n : Nat) : ∀ c ∈ natDec n, c ≠ '\n' :=
  fun c hc => isDigit_ne_nl (natDec_digits n c hc)

/-! ### Splitting a rendered zone file into its lines -/

theorem linesKeep_single (x : List Char) (hx : ∀ c ∈ x, c ≠ '\n') :
    linesKeep (x ++ ['\n']) = [x ++ ['\n']] := by
  have h := linesKeep_peel (x := x) [] hx
  rw [h]
  rfl

theorem linesKeep_nlend_append (y r : List Char) :
    linesKeep ((y ++ ['\n']) ++ r) = linesKeep (y ++ ['\n']) ++ linesKeep r := by
  induction y with
  | nil =>
    simp only [List.nil_append, List.cons_append]
    rw [linesKeep, if_pos rfl, linesKeep, if_pos rfl]
    rfl
  | cons c t ih =>
    by_cases hc : c = '\n'
    · subst hc
      simp only [List.cons_append]
      rw [linesKeep, if_pos rfl, linesKeep, if_pos rfl, ih]
      rfl
    · simp only [List.cons_append]
      rw [linesKeep, if_neg hc]
      conv_rhs => rw [linesKeep, if_neg hc]
      rw [ih]
      have hne : linesKeep (t ++ ['\n']) ≠ [] := by
        rw [ne_eq, linesKeep_eq_nil]
        simp
      cases hlk : linesKeep (t ++ ['\n']) with
      | nil => exact absurd hlk hne
      | cons l ls => rfl

/-! ### First token of a numeric SOA line -/

theorem firstTok_spaces_num (pre : List Char) (n : Nat) (post : List Char)
    (hpre : ∀ c ∈ pre, c = ' ') (hpost : post.head? = some ' ') :
    firstTok (pre ++ (natDec n ++ post)) = natDec n := by
  unfold firstTok
  rw [List.dropWhile_append_of_pos (by intro a ha; simp [hpre a ha])]
  cases hn : natDec n with
  | nil => exact absurd hn (natDec_ne_nil n)
  | cons c0 cs =>
    have hc0 : c0.isDigit = true := natDec_digits n c0 (by rw [hn]; simp)
    rw [List.cons_append, List.dropWhile_cons,
      if_neg (by simp [isDigit_ne_space hc0])]
    cases post with
    | nil => exact absurd hpost (by simp)
    | cons p0 ps =>
      have hp0 : p0 = ' ' := by
        simp only [List.head?_cons, Option.some.injEq] at hpost
        exact hpost
      rw [← List.cons_append, List.takeWhile_append_of_pos (by
        intro a ha
        rw [← hn] at ha
        simp [isDigit_ne_space (natDec_digits n a ha)])]
      rw [List.takeWhile_cons, if_neg (by simp [hp0])]
      simp

/-! ### The SOA lines of a rendered zone file -/

theorem line0_eq (ttl : Nat) :
    line0 ttl = (("$TTL    ").toList ++ natDec ttl) ++ ['\n'] := by
  simp [line0, List.append_assoc]

theorem line1_eq (ns d : String) :
    line1 ns d = (("@       IN      SOA     ns1.").toList ++ (ns.toList ++ ((". admin.").toList
      ++ (d.toList ++ (". (").toList)))) ++ ['\n'] := by
  simp [line1, List.append_assoc]

theorem lineSerial_eq (serial : Nat) :
    lineSerial serial = (sp21 ++ (natDec serial ++ ("           ; Serial (timestamp)").toList)) ++ ['\n'] := by
  simp [lineSerial, List.append_assoc]

theorem lineRefresh_eq (ttl : Nat) :
    lineRefresh ttl = (sp25 ++ (natDec ttl ++ ("         ; Refresh").toList)) ++ ['\n'] := by
  simp [lineRefresh, List.append_assoc]

theorem lineRetry_eq (ttl : Nat) :
    lineRetry ttl = (sp25 ++ (natDec ttl ++ ("         ; Retry").toList)) ++ ['\n'] := by
  simp [lineRetry, List.append_assoc]

theorem lineExpire_eq :
    lineExpire = (sp25 ++ ("604800             ; Expire").toList) ++ ['\n'] := by
  simp [lineExpire, List.append_assoc]

theorem lineNegCache_eq (ttl : Nat) :
    lineNegCache ttl = (sp25 ++ (natDec ttl ++ (" )       ; Negative Cache TTL").toList)) ++ ['\n'] := by
  simp [lineNegCache, List.append_assoc]

/-- `readlines` of a rendered zone file: the seven SOA-header lines, then the
lines of the remaining records. -/
theorem linesKeep_zoneContentL (cfg : Config) (d : String) (serial : Nat) (dk : Option String)
    (hd : ValidDomain d) (hns : ∀ c ∈ cfg.ns_base.toList, c ≠ '\n') :
    linesKeep (zoneContentL cfg d serial dk)
      = line0 cfg.default_ttl :: line1 cfg.ns_base d :: lineSerial serial
        :: lineRefresh cfg.default_ttl :: lineRetry cfg.default_ttl :: lineExpire
        :: lineNegCache cfg.default_ttl :: linesKeep (zoneTail cfg d ++ dkimPart dk) := by
  have hb0 : ∀ c ∈ ("$TTL    ").toList ++ natDec cfg.default_ttl, c ≠ '\n' := by
    intro c hc
    rcases List.mem_append.mp hc with h | h
    · exact ne_of_all (by decide) c h
    · exact natDec_no_nl _ c h
  have hb1 : ∀ c ∈ ("@       IN      SOA     ns1.").toList ++ (cfg.ns_base.toList ++ ((". admin.").toList
      ++ (d.toList ++ (". (").toList))), c ≠ '\n' := by
    intro c hc
    rcases List.mem_append.mp hc with h | h
    · exact ne_of_all (by decide) c h
    rcases List.mem_append.mp h with h | h
    · exact hns c h
    rcases List.mem_append.mp h with h | h
    · exact ne_of_all (by decide) c h
    rcases List.mem_append.mp h with h | h
    · exact valid_no_nl hd c h
    · exact ne_of_all (by decide) c h
  have hsp21 : ∀ c ∈ sp21, c ≠ '\n' := ne_of_all (by decide)
  have hsp25 : ∀ c ∈ sp25, c ≠ '\n' := ne_of_all (by decide)
  have hbS : ∀ c ∈ sp21 ++ (natDec serial ++ ("           ; Serial (timestamp)").toList), c ≠ '\n' := by
    intro c hc
    rcases List.mem_append.mp hc with h | h
    · exact hsp21 c h
    rcases List.mem_append.mp h with h | h
    · exact natDec_no_nl _ c h
    · exact ne_of_all (by decide) c h
  have hbR : ∀ c ∈ sp25 ++ (natDec cfg.default_ttl ++ ("         ; Refresh").toList), c ≠ '\n' := by
    intro c hc
    rcases List.mem_append.mp hc with h | h
    · exact hsp25 c h
    rcases List.mem_append.mp h with h | h
    · exact natDec_no_nl _ c h
    · exact ne_of_all (by decide) c h
  have hbT : ∀ c ∈ sp25 ++ (natDec cfg.default_ttl ++ ("         ; Retry").toList), c ≠ '\n' := by
    intro c hc
    rcases List.mem_append.mp hc with h | h
    · exact hsp25 c h
    rcases List.mem_append.mp h with h | h
    · exact natDec_no_nl _ c h
    · exact ne_of_all (by decide) c h
  have hbE : ∀ c ∈ sp25 ++ ("604800             ; Expire").toList, c ≠ '\n' := by
    intro c hc
    rcases List.mem_append.mp hc with h | h
    · exact hsp25 c h
    · exact ne_of_all (by decide) c h
  have hbN : ∀ c ∈ sp25 ++ (natDec cfg.default_ttl ++ (" )       ; Negative Cache TTL").toList), c ≠ '\n' := by
    intro c hc
    rcases List.mem_append.mp hc with h | h
    · exact hsp25 c h
    rcases List.mem_append.mp h with h | h
    · exact natDec_no_nl _ c h
    · exact ne_of_all (by decide) c h
  unfold zoneContentL zoneBaseL
  simp only [List.append_assoc]
  rw [line0_eq, linesKeep_nlend_append, linesKeep_single _ hb0, ← line0_eq]
  rw [line1_eq, linesKeep_nlend_append, linesKeep_single _ hb1, ← line1_eq]
  rw [lineSerial_eq, linesKeep_nlend_append, linesKeep_single _ hbS, ← lineSerial_eq]
  rw [lineRefresh_eq, linesKeep_nlend_append, linesKeep_single _ hbR, ← lineRefresh_eq]
  rw [lineRetry_eq, linesKeep_nlend_append, linesKeep_single _ hbT, ← lineRetry_eq]
  rw [lineExpire_eq, linesKeep_nlend_append, linesKeep_single _ hbE, ← lineExpire_eq]
  rw [lineNegCache_eq, linesKeep_nlend_append, linesKeep_single _ hbN, ← lineNegCache_eq]
  rfl

theorem eq_of_all {p0 : Char} {x : List Char} (h : x.all (fun a => a == p0) = true) :
    ∀ c ∈ x, c = p0 := by
  intro c hc
  have := List.all_eq_true.mp h c hc
  simpa using this

theorem lineTok_serial (cfg : Config) (d : String) (serial : Nat) (dk : Option String)
    (hd : ValidDomain d) (hns : ∀ c ∈ cfg.ns_base.toList, c ≠ '\n') :
    lineTok (zoneContentL cfg d serial dk) 2 = natDec serial := by
  rw [lineTok, linesKeep_zoneContentL cfg d serial dk hd hns]
  show firstTok (lineSerial serial) = natDec serial
  rw [lineSerial]
  simp only [List.append_assoc]
  exact firstTok_spaces_num sp21 serial (("           ; Serial (timestamp)").toList ++ ['\n'])
    (eq_of_all (by decide)) (by decide)

theorem lineTok_refresh (cfg : Config) (d : String) (serial : Nat) (dk : Option String)
    (hd : ValidDomain d) (hns : ∀ c ∈ cfg.ns_base.toList, c ≠ '\n') :
    lineTok (zoneContentL cfg d serial dk) 3 = natDec cfg.default_ttl := by
  rw [lineTok, linesKeep_zoneContentL cfg d serial dk hd hns]
  show firstTok (lineRefresh cfg.default_ttl) = natDec cfg.default_ttl
  rw [lineRefresh]
  simp only [List.append_assoc]
  exact firstTok_spaces_num sp25 _ (("         ; Refresh").toList ++ ['\n'])
    (eq_of_all (by decide)) (by decide)

theorem lineTok_retry (cfg : Config) (d : String) (serial : Nat) (dk : Option String)
    (hd : ValidDomain d) (hns : ∀ c ∈ cfg.ns_base.toList, c ≠ '\n') :
    lineTok (zoneContentL cfg d serial dk) 4 = natDec cfg.default_ttl := by
  rw [lineTok, linesKeep_zoneContentL cfg d serial dk hd hns]
  show firstTok (lineRetry cfg.default_ttl) = natDec cfg.default_ttl
  rw [lineRetry]
  simp only [List.append_assoc]
  exact firstTok_spaces_num sp25 _ (("         ; Retry").toList ++ ['\n'])
    (eq_of_all (by decide)) (by decide)

theorem lineTok_expire (cfg : Config) (d : String) (serial : Nat) (dk : Option String)
    (hd : ValidDomain d) (hns : ∀ c ∈ cfg.ns_base.toList, c ≠ '\n') :
    lineTok (zoneContentL cfg d serial dk) 5 = ("604800").toList := by
  rw [lineTok, linesKeep_zoneContentL cfg d serial dk hd hns]
  show firstTok lineExpire = ("604800").toList
  decide

theorem lineTok_negcache (cfg : Config) (d : String) (serial : Nat) (dk : Option String)
    (hd : ValidDomain d) (hns : ∀ c ∈ cfg.ns_base.toList, c ≠ '\n') :
    lineTok (zoneContentL cfg d serial dk) 6 = natDec cfg.default_ttl := by
  rw [lineTok, linesKeep_zoneContentL cfg d serial dk hd hns]
  show firstTok (lineNegCache cfg.default_ttl) = natDec cfg.default_ttl
  rw [lineNegCache]
  simp only [List.append_assoc]
  exact firstTok_spaces_num sp25 _ ((" )       ; Negative Cache TTL").toList ++ ['\n'])
    (eq_of_all (by decide)) (by decide)

/-! ### Pass-through of `remove_zone` on registries not mentioning the domain -/

theorem isPrefixOf_append_mono {p l : List Char} (y : List Char)
    (h : p.isPrefixOf l = true) : p.isPrefixOf (l ++ y) = true := by
  induction p generalizing l with
  | nil => simp
  | cons a as ih =>
    cases l with
    | nil => simp at h
    | cons b bs =>
      rw [List.isPrefixOf_cons₂, Bool.and_eq_true] at h
      rw [List.cons_append, List.isPrefixOf_cons₂, Bool.and_eq_true]
      exact ⟨h.1, ih h.2⟩

theorem containsSub_pat_nil (y : List Char) : containsSub y [] = true := by
  cases y with
  | nil => rfl
  | cons c t =>
    rw [containsSub_cons]
    simp

theorem containsSub_append_right (y : List Char) {l pat : List Char}
    (h : containsSub l pat = true) : containsSub (l ++ y) pat = true := by
  induction l with
  | nil =>
    rw [containsSub_nil, List.isEmpty_iff] at h
    subst h
    exact containsSub_pat_nil y
  | cons c t ih =>
    rw [containsSub_cons, Bool.or_eq_true] at h
    rw [List.cons_append, containsSub_cons]
    rcases h with h | h
    · rw [← List.cons_append, isPrefixOf_append_mono y h]
      rfl
    · rw [ih h, Bool.or_true]

/-- A line of a file inherits substring absence from the whole file. -/
theorem containsSub_line_of_mem {content line pat : List Char}
    (hline : line ∈ linesKeep content) (h : containsSub line pat = true) :
    containsSub content pat = true := by
  obtain ⟨s, t, hst⟩ := List.append_of_mem hline
  have : content = (linesKeep content).flatten := (flatten_linesKeep content).symm
  rw [this, hst, List.flatten_append, List.flatten_cons]
  exact containsSub_append_left _ (containsSub_append_right _ h)

theorem removeLines_keep (d : String) (lines : List (List Char))
    (h : ∀ l ∈ lines, containsSub l (zoneMarkerL d) = false) :
    removeLines d lines false = lines := by
  induction lines with
  | nil => rfl
  | cons l ls ih =>
    rw [removeLines, if_neg (by rw [h l (by simp)]; exact (by decide)),
      if_neg (by rw [Bool.false_and]; exact (by decide)), if_neg (by decide),
      ih (fun x hx => h x (by simp [hx]))]

/-! ### Claims -/

/-- C7: for every domain `D` and configured TTL `T`, the rendered zone file
substitutes `T` verbatim into exactly the three SOA fields refresh (line 3),
retry (line 4) and negative-cache TTL (line 6), while the expire field
(line 5) is the constant `604800` independent of `T` (the serial field,
line 2, carries the call's timestamp, not `T`); and `create_zone_file` stores
the rendered body for `db.<domain>` as a full overwrite: the stored content is
the freshly rendered body whatever the prior state held. -/
theorem C7_ttl_fields_and_overwrite (cfg : Config) (d : String) (now : Nat) (dk : Option String)
    (st : FsState) (hd : ValidDomain d) (hns : ValidDomain cfg.ns_base) :
    lineTok (zoneContentL cfg d now dk) 3 = natDec cfg.default_ttl ∧
    lineTok (zoneContentL cfg d now dk) 4 = natDec cfg.default_ttl ∧
    lineTok (zoneContentL cfg d now dk) 6 = natDec cfg.default_ttl ∧
    lineTok (zoneContentL cfg d now dk) 5 = ("604800").toList ∧
    lineTok (zoneContentL cfg d now dk) 2 = natDec now ∧
    (create_zone_file cfg now d dk st).2.zoneFile d = some (zoneContentL cfg d now dk) ∧
    (create_zone_file cfg now d dk st).1 = true := by
  have hns' : ∀ c ∈ cfg.ns_base.toList, c ≠ '\n' := valid_no_nl hns
  refine ⟨lineTok_refresh cfg d now dk hd hns', lineTok_retry cfg d now dk hd hns',
    lineTok_negcache cfg d now dk hd hns', lineTok_expire cfg d now dk hd hns',
    lineTok_serial cfg d now dk hd hns', ?_, rfl⟩
  simp [create_zone_file]

/-- Witness for C7 at the spec's sample configuration, with a state that held
prior content for the zone file (exercising the overwrite). -/
theorem C7_witness :
    ValidDomain "example.com" ∧ ValidDomain cfg0.ns_base ∧
      (lineTok (zoneContentL cfg0 "example.com" 1700000000 none) 3 = natDec cfg0.default_ttl ∧
       lineTok (zoneContentL cfg0 "example.com" 1700000000 none) 4 = natDec cfg0.default_ttl ∧
       lineTok (zoneContentL cfg0 "example.com" 1700000000 none) 6 = natDec cfg0.default_ttl ∧
       lineTok (zoneContentL cfg0 "example.com" 1700000000 none) 5 = ("604800").toList ∧
       lineTok (zoneContentL cfg0 "example.com" 1700000000 none) 2 = natDec 1700000000 ∧
       (create_zone_file cfg0 1700000000 "example.com" none stPrior).2.zoneFile "example.com"
         = some (zoneContentL cfg0 "example.com" 1700000000 none) ∧
       (create_zone_file cfg0 1700000000 "example.com" none stPrior).1 = true) :=
  ⟨by decide, by decide,
    C7_ttl_fields_and_overwrite cfg0 "example.com" 1700000000 none stPrior (by decide) (by decide)⟩

/-- C6: for every signing-key input, the key material embedded in the DKIM
TXT record (`cleanKey`) contains no whitespace character and no PEM header or
footer text; a truthy key appends exactly the DKIM section to the otherwise
unchanged body; `dkim_key = None` appends nothing; and the rendered body
without a key contains no `dkim._domainkey` record at all (checked at the
spec's sample configuration). -/
theorem C6_dkim_clean_and_absent (key : String) (hkey : key ≠ "") (cfg : Config) (d : String)
    (now : Nat) :
    (∀ c ∈ cleanKey key, isPyWs c = false) ∧
    containsSub (cleanKey key) headerPEM = false ∧
    containsSub (cleanKey key) footerPEM = false ∧
    zoneContentL cfg d now (some key) = zoneContentL cfg d now none ++ dkimChunkL (cleanKey key) ∧
    dkimPart none = [] ∧
    containsSub (zoneContentL cfg0 "example.com" 1700000000 none) (("dkim._domainkey").toList) = false := by
  have h1 : ∀ c ∈ cleanKey key, isPyWs c = false := by
    intro c hc
    have h := (List.mem_filter.mp hc).2
    simpa using h
  refine ⟨h1, ?_, ?_, ?_, rfl, ?_⟩
  · cases hcs : containsSub (cleanKey key) headerPEM with
    | false => rfl
    | true =>
      exfalso
      have hm : (' ' : Char) ∈ cleanKey key := containsSub_subset hcs ' ' (by decide)
      have := h1 ' ' hm
      exact absurd this (by decide)
  · cases hcs : containsSub (cleanKey key) footerPEM with
    | false => rfl
    | true =>
      exfalso
      have hm : (' ' : Char) ∈ cleanKey key := containsSub_subset hcs ' ' (by decide)
      have := h1 ' ' hm
      exact absurd this (by decide)
  · simp [zoneContentL, dkimPart, hkey]
  · decide

/-- Witness for C6 at a PEM-formatted key with embedded newlines. -/
theorem C6_witness :
    ("-----BEGIN PUBLIC KEY-----\nMIIBIjANBg\nAQAB\n-----END PUBLIC KEY-----\n" : String) ≠ "" ∧
      ((∀ c ∈ cleanKey "-----BEGIN PUBLIC KEY-----\nMIIBIjANBg\nAQAB\n-----END PUBLIC KEY-----\n", isPyWs c = false) ∧
       containsSub (cleanKey "-----BEGIN PUBLIC KEY-----\nMIIBIjANBg\nAQAB\n-----END PUBLIC KEY-----\n") headerPEM = false ∧
       containsSub (cleanKey "-----BEGIN PUBLIC KEY-----\nMIIBIjANBg\nAQAB\n-----END PUBLIC KEY-----\n") footerPEM = false ∧
       zoneContentL cfg0 "example.com" 1700000000 (some "-----BEGIN PUBLIC KEY-----\nMIIBIjANBg\nAQAB\n-----END PUBLIC KEY-----\n")
         = zoneContentL cfg0 "example.com" 1700000000 none
             ++ dkimChunkL (cleanKey "-----BEGIN PUBLIC KEY-----\nMIIBIjANBg\nAQAB\n-----END PUBLIC KEY-----\n") ∧
       dkimPart none = [] ∧
       containsSub (zoneContentL cfg0 "example.com" 1700000000 none) (("dkim._domainkey").toList) = false) :=
  ⟨by decide,
    C6_dkim_clean_and_absent "-----BEGIN PUBLIC KEY-----\nMIIBIjANBg\nAQAB\n-----END PUBLIC KEY-----\n"
      (by decide) cfg0 "example.com" 1700000000⟩

/-- C9: removing a domain that has no declaration block in the registry (and
no zone file) reports success and leaves the registry text and every zone
file unchanged: a successful no-op. -/
theorem C9_remove_unregistered_noop (d : String) (st : FsState)
    (hmark : containsSub st.registry (zoneMarkerL d) = false)
    (hfile : st.zoneFile d = none) :
    (remove_zone d st).1 = true ∧
    (remove_zone d st).2.registry = st.registry ∧
    (∀ x, (remove_zone d st).2.zoneFile x = st.zoneFile x) := by
  refine ⟨rfl, ?_, ?_⟩
  · show (removeLines d (linesKeep st.registry) false).flatten = st.registry
    rw [removeLines_keep d _ ?_, flatten_linesKeep]
    intro l hl
    cases hc : containsSub l (zoneMarkerL d) with
    | false => rfl
    | true =>
      have h := containsSub_line_of_mem hl hc
      rw [hmark] at h
      exact absurd h (by decide)
  · intro x
    show (if x = d then none else st.zoneFile x) = st.zoneFile x
    by_cases hx : x = d
    · rw [if_pos hx, hx, hfile]
    · rw [if_neg hx]

/-- Witness for C9: removing a never-registered domain from the sample
installation. -/
theorem C9_witness :
    containsSub st0.registry (zoneMarkerL "ghost.example") = false ∧
    st0.zoneFile "ghost.example" = none ∧
      ((remove_zone "ghost.example" st0).1 = true ∧
       (remove_zone "ghost.example" st0).2.registry = st0.registry ∧
       (∀ x, (remove_zone "ghost.example" st0).2.zoneFile x = st0.zoneFile x)) :=
  ⟨by decide, rfl, C9_remove_unregistered_noop "ghost.example" st0 (by decide) rfl⟩

/-- C2 (evaluation at the failing input): on a registry holding exactly
`example.com`'s block, `remove_zone` reports success and deletes the zone
file, but the rewritten registry is NOT empty: the scan treats the `};` on
the block's own `allow-transfer { any; };` line as the closing marker, so the
block's real closing line (and its leading blank line) survive as residue
`"\n};\n"`.  The spec's expected result - an empty registry with no residual
lines of the removed block - does not hold. -/
theorem C2_remove_leaves_residue :
    (remove_zone "example.com" stOneBlock).1 = true ∧
    (remove_zone "example.com" stOneBlock).2.registry = ("\n\x7d;\n").toList ∧
    (remove_zone "example.com" stOneBlock).2.registry ≠ [] ∧
    (remove_zone "example.com" stOneBlock).2.zoneFile "example.com" = none :=
  ⟨rfl, by decide, by decide, by decide⟩

/-- C3 (counterexample to the claim as stated): removing `a.com` from a
registry holding exactly the blocks of `a.com` and `a.com.br` does NOT remove
the whole of `a.com`'s block - the registry afterwards is not just
`a.com.br`'s block, but carries the residue `"\n};\n"` of `a.com`'s block in
front of it. -/
theorem C3_counterexample :
    (remove_zone "a.com" stTwoBlocks).2.registry ≠ zoneConfigBlockL "a.com.br" ∧
    (remove_zone "a.com" stTwoBlocks).2.registry
      = ("\n\x7d;\n").toList ++ zoneConfigBlockL "a.com.br" :=
  ⟨by decide, by decide⟩

/-- C3 (amended): for distinct valid domains `d1`, `d2` (in particular any
pair where one name is a prefix of the other), removing `d1` from the
registry holding `d1`'s block followed by `d2`'s touches only `d1`'s block:
`d2`'s block survives byte for byte (preceded by the residue of `d1`'s block,
see C2), `d1` is no longer declared, the declared zones are exactly `d2`, and
`d2`'s zone file is untouched. -/
theorem C3_remove_prefix_frame (d1 d2 : String) (st : FsState)
    (hd1 : ValidDomain d1) (hd2 : ValidDomain d2) (hne : d1 ≠ d2)
    (hreg : st.registry = zoneConfigBlockL d1 ++ zoneConfigBlockL d2) :
    (remove_zone d1 st).2.registry = ("\n\x7d;\n").toList ++ zoneConfigBlockL d2 ∧
    findZones (remove_zone d1 st).2.registry = [d2.toList] ∧
    (remove_zone d1 st).2.zoneFile d2 = st.zoneFile d2 ∧
    (remove_zone d1 st).1 = true := by
  have hlines : linesKeep st.registry = blockLines d1 ++ blockLines d2 := by
    rw [hreg, linesKeep_block d1 _ hd1]
    have h2 : linesKeep (zoneConfigBlockL d2) = blockLines d2 := by
      have h := linesKeep_block d2 [] hd2
      rw [List.append_nil] at h
      rw [h]
      simp [linesKeep]
    rw [h2]
  have hscan : removeLines d1 (linesKeep st.registry) false
      = ['\n'] :: (closeLineBody ++ ['\n']) :: blockLines d2 := by
    rw [hlines, removeLines_block_hit d1 _ hd1]
    have h2 : removeLines d1 (blockLines d2) false = blockLines d2 := by
      have h := removeLines_block_miss d1 d2 [] hd1 hd2 hne
      rw [List.append_nil] at h
      rw [h]
      simp [removeLines]
    rw [h2]
  have hflatb : (blockLines d2).flatten = zoneConfigBlockL d2 := by
    have h := linesKeep_block d2 [] hd2
    rw [List.append_nil] at h
    have h' : linesKeep (zoneConfigBlockL d2) = blockLines d2 := by
      rw [h]
      simp [linesKeep]
    rw [← h', flatten_linesKeep]
  have hregistry : (remove_zone d1 st).2.registry = ("\n\x7d;\n").toList ++ zoneConfigBlockL d2 := by
    show (removeLines d1 (linesKeep st.registry) false).flatten
        = ("\n\x7d;\n").toList ++ zoneConfigBlockL d2
    rw [hscan, List.flatten_cons, List.flatten_cons, hflatb]
    have e : (("\n\x7d;\n").toList : List Char) = ['\n'] ++ (closeLineBody ++ ['\n']) := by decide
    rw [e]
    simp [List.append_assoc]
  refine ⟨hregistry, ?_, ?_, rfl⟩
  · rw [hregistry, findZones_skip_noz _ _ (ne_of_all (by decide))]
    have h := findZones_block d2 [] hd2
    rw [List.append_nil] at h
    rw [h, findZones_nil]
  · show (if d2 = d1 then none else st.zoneFile d2) = st.zoneFile d2
    rw [if_neg (fun h => hne h.symm)]

/-- Witness for C3 at the genuinely prefixed pair `a.com` / `a.com.br`. -/
theorem C3_witness :
    ValidDomain "a.com" ∧ ValidDomain "a.com.br" ∧ ("a.com" : String) ≠ "a.com.br" ∧
    ("a.com").toList <+: ("a.com.br").toList ∧
      ((remove_zone "a.com" stTwoBlocks).2.registry
          = ("\n\x7d;\n").toList ++ zoneConfigBlockL "a.com.br" ∧
       findZones (remove_zone "a.com" stTwoBlocks).2.registry = [("a.com.br").toList] ∧
       (remove_zone "a.com" stTwoBlocks).2.zoneFile "a.com.br"
          = stTwoBlocks.zoneFile "a.com.br" ∧
       (remove_zone "a.com" stTwoBlocks).1 = true) :=
  ⟨by decide, by decide, by decide, by decide,
    C3_remove_prefix_frame "a.com" "a.com.br" stTwoBlocks (by decide) (by decide) (by decide) rfl⟩

/-- Evaluation of one `create_domain_dns` call (pure model) when the domain
is not yet declared: the zone file is written and the block appended. -/
theorem create_p_absent (cfg : Config) (now : Nat) (d : String) (dk : Option String)
    (st : FsState) (hc : containsSub st.registry (zoneMarkerL d) = false) :
    create_domain_dns_p cfg now d dk st
      = (true, ⟨st.registry ++ zoneConfigBlockL d,
          fun x => if x = d then some (zoneContentL cfg d now dk) else st.zoneFile x⟩) := by
  simp [create_domain_dns_p, create_zone_file, add_zone_to_config, hc]

/-- Evaluation of one `create_domain_dns` call (pure model) when the domain
is already declared: the zone file is rewritten, the registry untouched. -/
theorem create_p_present (cfg : Config) (now : Nat) (d : String) (dk : Option String)
    (st : FsState) (hc : containsSub st.registry (zoneMarkerL d) = true) :
    create_domain_dns_p cfg now d dk st
      = (true, ⟨st.registry,
          fun x => if x = d then some (zoneContentL cfg d now dk) else st.zoneFile x⟩) := by
  simp [create_domain_dns_p, create_zone_file, add_zone_to_config, hc]

/-- C1 (amended): on a registry of other registered domains, two successive
`create_domain_dns` calls for a fresh valid domain `D` leave exactly one
declaration block for `D`: the first call appends `D`'s block, the second
detects it and leaves the registry unchanged, and the declared zones mention
`D` exactly once.  The zone file is rewritten by each call, and the serial
written is the call's clock reading `int(time.time())`: the second serial is
strictly greater than the first exactly when the clock advanced to a larger
whole second between the calls, and equal when both calls fall in the same
second (see the counterexample). -/
theorem C1_create_twice_idempotent (cfg : Config) (d : String) (dk : Option String)
    (ds : List String) (st : FsState) (now1 now2 : Nat)
    (hd : ValidDomain d) (hds : ∀ a ∈ ds, ValidDomain a) (hmem : d ∉ ds)
    (hns : ValidDomain cfg.ns_base)
    (hreg : st.registry = registryOf ds) :
    (create_domain_dns_p cfg now1 d dk st).2.registry = registryOf (ds ++ [d]) ∧
    (create_domain_dns_p cfg now2 d dk (create_domain_dns_p cfg now1 d dk st).2).2.registry
      = (create_domain_dns_p cfg now1 d dk st).2.registry ∧
    (findZones (create_domain_dns_p cfg now2 d dk
        (create_domain_dns_p cfg now1 d dk st).2).2.registry).count d.toList = 1 ∧
    (create_domain_dns_p cfg now1 d dk st).2.zoneFile d = some (zoneContentL cfg d now1 dk) ∧
    (create_domain_dns_p cfg now2 d dk (create_domain_dns_p cfg now1 d dk st).2).2.zoneFile d
      = some (zoneContentL cfg d now2 dk) ∧
    lineTok (zoneContentL cfg d now1 dk) 2 = natDec now1 ∧
    lineTok (zoneContentL cfg d now2 dk) 2 = natDec now2 := by
  have hds' : ∀ a ∈ ds ++ [d], ValidDomain a := by
    intro a ha
    rcases List.mem_append.mp ha with h | h
    · exact hds a h
    · simp only [List.mem_singleton] at h
      rw [h]
      exact hd
  have hc1 : containsSub st.registry (zoneMarkerL d) = false := by
    rw [hreg]
    cases h : containsSub (registryOf ds) (zoneMarkerL d) with
    | false => rfl
    | true => exact absurd ((containsSub_registryOf_marker d ds hd hds).mp h) hmem
  have h1 := create_p_absent cfg now1 d dk st hc1
  have hregA : st.registry ++ zoneConfigBlockL d = registryOf (ds ++ [d]) := by
    rw [hreg, registryOf_append]
  have hc2 : containsSub (st.registry ++ zoneConfigBlockL d) (zoneMarkerL d) = true := by
    rw [hregA]
    exact (containsSub_registryOf_marker d (ds ++ [d]) hd hds').mpr (by simp)
  have h2 := create_p_present cfg now2 d dk
    ⟨st.registry ++ zoneConfigBlockL d,
      fun x => if x = d then some (zoneContentL cfg d now1 dk) else st.zoneFile x⟩ hc2
  rw [h1, h2]
  refine ⟨hregA, hregA.symm ▸ rfl, ?_, by simp, by simp,
    lineTok_serial cfg d now1 dk hd (valid_no_nl hns),
    lineTok_serial cfg d now2 dk hd (valid_no_nl hns)⟩
  show (findZones (st.registry ++ zoneConfigBlockL d)).count d.toList = 1
  rw [hregA, findZones_registryOf _ hds', List.map_append, List.count_append]
  have h0 : (ds.map (fun a : String => a.toList)).count d.toList = 0 := by
    rw [List.count_eq_zero]
    intro h
    obtain ⟨a, ha, he⟩ := List.mem_map.mp h
    exact hmem (toList_inj he ▸ ha)
  rw [h0]
  simp

/-- Witness for C1 at the sample configuration, with one other domain
registered and clock readings one second apart. -/
theorem C1_witness :
    ValidDomain "example.com" ∧ (∀ a ∈ ["first.tld"], ValidDomain a) ∧
    "example.com" ∉ ["first.tld"] ∧ ValidDomain cfg0.ns_base ∧
      ((create_domain_dns_p cfg0 1700000000 "example.com" none
          ⟨registryOf ["first.tld"], fun _ => none⟩).2.registry
        = registryOf (["first.tld"] ++ ["example.com"]) ∧
       (create_domain_dns_p cfg0 1700000001 "example.com" none
          (create_domain_dns_p cfg0 1700000000 "example.com" none
            ⟨registryOf ["first.tld"], fun _ => none⟩).2).2.registry
        = (create_domain_dns_p cfg0 1700000000 "example.com" none
            ⟨registryOf ["first.tld"], fun _ => none⟩).2.registry ∧
       (findZones (create_domain_dns_p cfg0 1700000001 "example.com" none
          (create_domain_dns_p cfg0 1700000000 "example.com" none
            ⟨registryOf ["first.tld"], fun _ => none⟩).2).2.registry).count
          ("example.com").toList = 1 ∧
       (create_domain_dns_p cfg0 1700000000 "example.com" none
          ⟨registryOf ["first.tld"], fun _ => none⟩).2.zoneFile "example.com"
        = some (zoneContentL cfg0 "example.com" 1700000000 none) ∧
       (create_domain_dns_p cfg0 1700000001 "example.com" none
          (create_domain_dns_p cfg0 1700000000 "example.com" none
            ⟨registryOf ["first.tld"], fun _ => none⟩).2).2.zoneFile "example.com"
        = some (zoneContentL cfg0 "example.com" 1700000001 none) ∧
       lineTok (zoneContentL cfg0 "example.com" 1700000000 none) 2 = natDec 1700000000 ∧
       lineTok (zoneContentL cfg0 "example.com" 1700000001 none) 2 = natDec 1700000001) :=
  ⟨by decide, by decide, by decide, by decide,
    C1_create_twice_idempotent cfg0 "example.com" none ["first.tld"]
      ⟨registryOf ["first.tld"], fun _ => none⟩ 1700000000 1700000001
      (by decide) (by decide) (by decide) (by decide) rfl⟩

/-- C1 (counterexample to the claim as stated): two successive calls within
the same clock second (`int(time.time())` returning 1700000000 both times)
write byte-for-byte identical zone files - in particular equal serials, not a
strictly greater one. -/
theorem C1_counterexample :
    (create_domain_dns_p cfg0 1700000000 "example.com" none
        (create_domain_dns_p cfg0 1700000000 "example.com" none st0).2).2.zoneFile "example.com"
      = (create_domain_dns_p cfg0 1700000000 "example.com" none st0).2.zoneFile "example.com" ∧
    (create_domain_dns_p cfg0 1700000000 "example.com" none st0).2.zoneFile "example.com"
      = some (zoneContentL cfg0 "example.com" 1700000000 none) ∧
    lineTok (zoneContentL cfg0 "example.com" 1700000000 none) 2 = natDec 1700000000 :=
  ⟨by decide, by decide, by decide⟩

/-- C8: after a successful `create_domain_dns` for a fresh valid domain `D`,
`list_zones` returns the registry's zones in file (insertion) order with the
base zone excluded, and it contains `D` exactly once. -/
theorem C8_create_then_list (cfg : Config) (d : String) (dk : Option String)
    (ds : List String) (st : FsState) (now : Nat)
    (hd : ValidDomain d) (hds : ∀ a ∈ ds, ValidDomain a) (hmem : d ∉ ds)
    (hnsne : d ≠ cfg.ns_base) (hreg : st.registry = registryOf ds) :
    (create_domain_dns_p cfg now d dk st).1 = true ∧
    list_zones cfg (create_domain_dns_p cfg now d dk st).2
      = (ds ++ [d]).filter (fun z => z != cfg.ns_base) ∧
    (list_zones cfg (create_domain_dns_p cfg now d dk st).2).count d = 1 := by
  have hds' : ∀ a ∈ ds ++ [d], ValidDomain a := by
    intro a ha
    rcases List.mem_append.mp ha with h | h
    · exact hds a h
    · simp only [List.mem_singleton] at h
      rw [h]
      exact hd
  have hc1 : containsSub st.registry (zoneMarkerL d) = false := by
    rw [hreg]
    cases h : containsSub (registryOf ds) (zoneMarkerL d) with
    | false => rfl
    | true => exact absurd ((containsSub_registryOf_marker d ds hd hds).mp h) hmem
  have h1 := create_p_absent cfg now d dk st hc1
  have hregA : st.registry ++ zoneConfigBlockL d = registryOf (ds ++ [d]) := by
    rw [hreg, registryOf_append]
  have hlist : list_zones cfg (create_domain_dns_p cfg now d dk st).2
      = (ds ++ [d]).filter (fun z => z != cfg.ns_base) := by
    rw [h1]
    exact list_zones_registryOf cfg _ (ds ++ [d]) hds' hregA
  refine ⟨by rw [h1], hlist, ?_⟩
  rw [hlist, List.filter_append, List.count_append]
  have h0 : (ds.filter (fun z => z != cfg.ns_base)).count d = 0 := by
    rw [List.count_eq_zero]
    intro h
    exact hmem (List.mem_of_mem_filter h)
  rw [h0]
  have hF : ([d].filter (fun z => z != cfg.ns_base)) = [d] := by
    have hb : (d != cfg.ns_base) = true := by simpa using hnsne
    simp [List.filter, hb]
  rw [hF]
  simp

/-- Witness for C8: registering `example.com` next to one other domain under
the sample configuration. -/
theorem C8_witness :
    ValidDomain "example.com" ∧ (∀ a ∈ ["first.tld"], ValidDomain a) ∧
    "example.com" ∉ ["first.tld"] ∧ ("example.com" : String) ≠ cfg0.ns_base ∧
      ((create_domain_dns_p cfg0 1700000000 "example.com" none
          ⟨registryOf ["first.tld"], fun _ => none⟩).1 = true ∧
       list_zones cfg0 (create_domain_dns_p cfg0 1700000000 "example.com" none
          ⟨registryOf ["first.tld"], fun _ => none⟩).2
         = (["first.tld"] ++ ["example.com"]).filter (fun z => z != cfg0.ns_base) ∧
       (list_zones cfg0 (create_domain_dns_p cfg0 1700000000 "example.com" none
          ⟨registryOf ["first.tld"], fun _ => none⟩).2).count "example.com" = 1) :=
  ⟨by decide, by decide, by decide, by decide,
    C8_create_then_list cfg0 "example.com" none ["first.tld"]
      ⟨registryOf ["first.tld"], fun _ => none⟩ 1700000000
      (by decide) (by decide) (by decide) (by decide) rfl⟩

/-- C4 (amended): `create_domain_dns` returns `True` exactly when every stage
(zone-file write; registry read and - unless the domain is already declared -
append; configuration check and reload, neither raising) succeeds, and it
short-circuits: when the zone-file write fails nothing later runs and the
state is fully unchanged.  The returned value itself is a bare boolean: it
does NOT identify the failing stage (see the counterexample). -/
theorem C4_result_and_shortcircuit (env : Env) (cfg : Config) (now : Nat) (d : String)
    (dk : Option String) (st : FsState) :
    (create_domain_dns_x env cfg now d dk st).retval
      = some (env.zoneWriteOk
          && (env.regReadOk && (containsSub st.registry (zoneMarkerL d) || env.regAppendOk))
          && (!env.subprocRaises && (env.checkconfOk && env.reloadOk))) ∧
    (env.zoneWriteOk = false → create_domain_dns_x env cfg now d dk st = .ok false st) := by
  obtain ⟨zw, rr, ra, rw1, fr, sr, ck, rl⟩ := env
  constructor
  · cases zw <;> cases rr <;> cases ra <;> cases sr <;> cases ck <;> cases rl <;>
      cases hc : containsSub st.registry (zoneMarkerL d) <;>
      simp [create_domain_dns_x, create_zone_file_x, add_zone_to_config_x, reload_bind_x,
        pyCatch, PyRes.retval, hc]
  · intro hzw
    simp only at hzw
    subst hzw
    simp [create_domain_dns_x, create_zone_file_x, pyCatch]

/-- Witness for C4's amended statement at a concrete environment in which
every stage succeeds and the domain is fresh. -/
theorem C4_witness :
    (Env.zoneWriteOk ⟨true, true, true, true, true, false, true, true⟩ = false →
      create_domain_dns_x ⟨true, true, true, true, true, false, true, true⟩ cfg0 1700000000
        "example.com" none st0 = .ok false st0) ∧
    (create_domain_dns_x ⟨true, true, true, true, true, false, true, true⟩ cfg0 1700000000
        "example.com" none st0).retval
      = some ((⟨true, true, true, true, true, false, true, true⟩ : Env).zoneWriteOk
          && ((⟨true, true, true, true, true, false, true, true⟩ : Env).regReadOk
            && (containsSub st0.registry (zoneMarkerL "example.com")
              || (⟨true, true, true, true, true, false, true, true⟩ : Env).regAppendOk))
          && (!(⟨true, true, true, true, true, false, true, true⟩ : Env).subprocRaises
            && ((⟨true, true, true, true, true, false, true, true⟩ : Env).checkconfOk
              && (⟨true, true, true, true, true, false, true, true⟩ : Env).reloadOk))) :=
  ⟨(C4_result_and_shortcircuit ⟨true, true, true, true, true, false, true, true⟩ cfg0
      1700000000 "example.com" none st0).2,
   (C4_result_and_shortcircuit ⟨true, true, true, true, true, false, true, true⟩ cfg0
      1700000000 "example.com" none st0).1⟩

/-- C4 (counterexample to the claim as stated): a failure of the first stage
(zone-file write) and a failure of the last stage (reload) leave visibly
different partial states - no zone file versus zone file written and block
registered - yet `create_domain_dns` reports the identical result `False` for
both: the result does not identify the failing stage. -/
theorem C4_counterexample :
    (create_domain_dns_x ⟨false, true, true, true, true, false, true, true⟩ cfg0 1700000000
        "example.com" none st0).retval = some false ∧
    (create_domain_dns_x ⟨true, true, true, true, true, false, true, false⟩ cfg0 1700000000
        "example.com" none st0).retval = some false ∧
    (create_domain_dns_x ⟨false, true, true, true, true, false, true, true⟩ cfg0 1700000000
        "example.com" none st0).state.zoneFile "example.com" = none ∧
    (create_domain_dns_x ⟨true, true, true, true, true, false, true, false⟩ cfg0 1700000000
        "example.com" none st0).state.zoneFile "example.com"
      = some (zoneContentL cfg0 "example.com" 1700000000 none) ∧
    (create_domain_dns_x ⟨true, true, true, true, true, false, true, false⟩ cfg0 1700000000
        "example.com" none st0).state.registry = zoneConfigBlockL "example.com" :=
  ⟨by decide, by decide, by decide, by decide, by decide⟩

/-- C5 (amended): `verify_dns` always returns a boolean and maps a raising
query (timeout, unreachable server) to `False`; it returns `True` exactly
when the subprocess did not raise, `dig` exited 0, and the configured IP
occurs as a substring anywhere in the captured output - a weaker condition
than "the returned address record matches", see the counterexample. -/
theorem C5_verify_boolean (ip : String) (r : DigRun) :
    (verify_dns ip r = true
      ↔ (r.raised = false ∧ r.returncode = 0 ∧ containsSub r.stdout.toList ip.toList = true)) ∧
    (r.raised = true → verify_dns ip r = false) := by
  obtain ⟨raised, rc, out, addrs⟩ := r
  cases raised <;> simp [verify_dns]

/-- Witness for C5's amended statement at the concrete capture `digRun0`. -/
theorem C5_witness :
    (verify_dns "203.0.113.5" digRun0 = true
      ↔ (digRun0.raised = false ∧ digRun0.returncode = 0
          ∧ containsSub digRun0.stdout.toList ("203.0.113.5").toList = true)) ∧
    (digRun0.raised = true → verify_dns "203.0.113.5" digRun0 = false) :=
  C5_verify_boolean "203.0.113.5" digRun0

/-- C5 (counterexample to the claim as stated): at `digRun0` the resolved
address (`198.51.100.7`) differs from the configured IP, yet `verify_dns`
returns `True`, because the IP appears in the output's server trailer. -/
theorem C5_counterexample :
    verify_dns "203.0.113.5" digRun0 = true ∧
    ("203.0.113.5" ∉ digRun0.addrs) ∧
    digRun0.addrs = ["198.51.100.7"] :=
  ⟨by decide, by decide, rfl⟩

/-- C10: every public operation is total at its interface: with any outcome
of the external effects, `create_zone_file`, `add_zone_to_config`,
`remove_zone` and `reload_bind` return a boolean (every internal exception is
caught), `list_zones` returns a list, and when the registry cannot be read
`list_zones` returns the empty list. -/
theorem C10_total_interface (env : Env) (cfg : Config) (now : Nat) (d : String)
    (dk : Option String) (st : FsState) :
    (create_zone_file_x env cfg now d dk st).isOk = true ∧
    (add_zone_to_config_x env d st).isOk = true ∧
    (remove_zone_x env d st).isOk = true ∧
    (reload_bind_x env st).isOk = true ∧
    (list_zones_x env cfg st).isOk = true ∧
    (env.regReadOk = false → (list_zones_x env cfg st).retval = some []) := by
  have hcatch : ∀ {α : Type} (b : PyRes α) (f : α), (pyCatch b f).isOk = true := by
    intro α b f
    cases b <;> rfl
  refine ⟨hcatch _ _, hcatch _ _, hcatch _ _, hcatch _ _, hcatch _ _, ?_⟩
  intro h
  simp [list_zones_x, h, pyCatch, PyRes.retval]

/-- Witness for C10 at an environment whose registry read fails. -/
theorem C10_witness :
    ((create_zone_file_x ⟨true, false, true, true, true, false, true, true⟩ cfg0 1700000000
        "example.com" none st0).isOk = true ∧
     (add_zone_to_config_x ⟨true, false, true, true, true, false, true, true⟩ "example.com"
        st0).isOk = true ∧
     (remove_zone_x ⟨true, false, true, true, true, false, true, true⟩ "example.com"
        st0).isOk = true ∧
     (reload_bind_x ⟨true, false, true, true, true, false, true, true⟩ st0).isOk = true ∧
     (list_zones_x ⟨true, false, true, true, true, false, true, true⟩ cfg0 st0).isOk = true ∧
     ((⟨true, false, true, true, true, false, true, true⟩ : Env).regReadOk = false →
       (list_zones_x ⟨true, false, true, true, true, false, true, true⟩ cfg0 st0).retval
         = some [])) :=
  C10_total_interface ⟨true, false, true, true, true, false, true, true⟩ cfg0 1700000000
    "example.com" none st0

end DnsMgr
